import Mathlib

/-!
Verification of the resource-lifecycle core of a community VPS bot
(`src/bot.py`).  The bot keeps four JSON documents in memory (user
accounts, VPS records together with the purge window, giveaways, and
purge-protection records) and mutates them from command handlers and
deadline-resolution routines.  This file gives a shallow embedding of
those documents and of the store-mutating operations, and proves the
behavioural properties of interest: trial lifecycle, credit
adjustment, id allocation, giveaway finalization, purge sweeps and
the deadline scheduler.

Conventions of the embedding:
* JSON dictionaries become association lists `List (String × α)` with
  Python `dict` semantics (`alistGet`, `alistSet`, `alistErase`).
* Python `int` becomes `Int` (timestamps, credits) or `Nat` (sizes).
* `str.isdigit` / `int(...)` / `str(...)` on ids become `pyIsDigit` /
  `pyToNat` / `natToString`.
* Each `save_vps_data()` / `save_user_db()` call bumps a persistence
  counter in the store, so theorems can talk about how often a routine
  persists.
* External collaborators (message fetches, reactors, random choice)
  enter as explicit parameters of the resolution routines.
-/

/-! ## Decimal strings: `str.isdigit`, `int(...)`, `str(...)` -/

/-- Python `s.isdigit()` for the ASCII ids used by the bot: non-empty and
all characters are decimal digits. -/
def pyIsDigit (s : String) : Bool :=
  !s.data.isEmpty && s.data.all Char.isDigit

/-- Python `int(s)` on a digit string: left fold of decimal digits. -/
def pyToNat (s : String) : Nat :=
  s.data.foldl (fun a c => a * 10 + (c.toNat - 48)) 0

/-- Little-endian decimal digits of `n` (fuelled structural recursion;
`fuel ≥ n` is always enough). -/
def natDigitsRev (fuel n : Nat) : List Nat :=
  match fuel with
  | 0 => []
  | fuel + 1 => if n = 0 then [] else n % 10 :: natDigitsRev fuel (n / 10)

/-- Python `str(n)` for a natural number. -/
def natToString (n : Nat) : String :=
  if n = 0 then "0"
  else ⟨((natDigitsRev n n).map (fun d => Char.ofNat (48 + d))).reverse⟩

theorem natDigitsRev_eq_digits (fuel n : Nat) (h : n ≤ fuel) :
    natDigitsRev fuel n = Nat.digits 10 n := by
  induction fuel generalizing n with
  | zero =>
    interval_cases n
    simp [natDigitsRev]
  | succ fuel ih =>
    by_cases hn : n = 0
    · simp [natDigitsRev, hn]
    · rw [natDigitsRev, if_neg hn, Nat.digits_def' (by norm_num) (Nat.pos_of_ne_zero hn),
        ih (n / 10) ?_]
      have h10 : n / 10 < n := Nat.div_lt_self (Nat.pos_of_ne_zero hn) (by norm_num)
      omega

theorem digitChar_isDigit {d : Nat} (hd : d < 10) :
    (Char.ofNat (48 + d)).isDigit = true := by
  interval_cases d <;> decide

theorem digitChar_toNat {d : Nat} (hd : d < 10) :
    (Char.ofNat (48 + d)).toNat = 48 + d := by
  interval_cases d <;> decide

theorem foldr_decimal (L : List Nat) (acc : Nat) :
    L.foldr (fun d a => a * 10 + d) acc = acc * 10 ^ L.length + Nat.ofDigits 10 L := by
  induction L generalizing acc with
  | nil => simp [Nat.ofDigits]
  | cons d t ih =>
    simp only [List.foldr_cons, ih, Nat.ofDigits_cons, List.length_cons, pow_succ]
    ring_nf

/-- Round trip: `int(str(n)) = n`. -/
theorem pyToNat_natToString (n : Nat) : pyToNat (natToString n) = n := by
  by_cases hn : n = 0
  · subst hn
    decide
  · have hdig : ∀ d ∈ Nat.digits 10 n, d < 10 := fun d hd =>
      Nat.digits_lt_base (by norm_num) hd
    unfold natToString
    rw [if_neg hn]
    unfold pyToNat
    show (((natDigitsRev n n).map (fun d => Char.ofNat (48 + d))).reverse).foldl
        (fun a c => a * 10 + (c.toNat - 48)) 0 = n
    rw [natDigitsRev_eq_digits n n le_rfl, List.foldl_reverse, List.foldr_map]
    have : ∀ (L : List Nat), (∀ d ∈ L, d < 10) →
        L.foldr (fun d a => a * 10 + ((Char.ofNat (48 + d)).toNat - 48)) 0 =
        L.foldr (fun d a => a * 10 + d) 0 := by
      intro L hL
      induction L with
      | nil => rfl
      | cons d t ih =>
        simp only [List.foldr_cons]
        rw [ih (fun x hx => hL x (List.mem_cons_of_mem _ hx)),
          digitChar_toNat (hL d (List.mem_cons_self _ _))]
        omega
    rw [this _ hdig, foldr_decimal, Nat.ofDigits_digits]
    simp

theorem pyIsDigit_of_forall {L : List Char} (hne : L ≠ [])
    (hall : ∀ c ∈ L, c.isDigit = true) : pyIsDigit ⟨L⟩ = true := by
  cases L with
  | nil => exact absurd rfl hne
  | cons c t =>
    simp only [pyIsDigit, List.isEmpty, Bool.not_false, Bool.true_and]
    exact List.all_eq_true.mpr hall

/-- `str(n)` always satisfies `isdigit`. -/
theorem pyIsDigit_natToString (n : Nat) : pyIsDigit (natToString n) = true := by
  by_cases hn : n = 0
  · subst hn
    decide
  · unfold natToString
    rw [if_neg hn]
    have hne : Nat.digits 10 n ≠ [] := Nat.digits_ne_nil_iff_ne_zero.mpr hn
    rw [natDigitsRev_eq_digits n n le_rfl]
    apply pyIsDigit_of_forall
    · simp [hne]
    · intro c hc
      simp only [List.mem_reverse, List.mem_map] at hc
      obtain ⟨d, hd, rfl⟩ := hc
      exact digitChar_isDigit (Nat.digits_lt_base (by norm_num) hd)

/-! ## Association lists with Python `dict` semantics -/

/-- `d.get(k)` — first binding of `k`. -/
def alistGet {α : Type} (l : List (String × α)) (k : String) : Option α :=
  match l with
  | [] => none
  | (k', v) :: t => if k' = k then some v else alistGet t k

/-- `d[k] = f(d[k])` — update the value bound to `k` in place (no-op when
absent; call sites guarantee presence). -/
def alistUpd {α : Type} (l : List (String × α)) (k : String) (f : α → α) :
    List (String × α) :=
  match l with
  | [] => []
  | (k', v) :: t => if k' = k then (k', f v) :: alistUpd t k f else (k', v) :: alistUpd t k f

/-- `d[k] = v` — replace in place when present, append when absent. -/
def alistSet {α : Type} (l : List (String × α)) (k : String) (v : α) :
    List (String × α) :=
  if (alistGet l k).isSome then alistUpd l k (fun _ => v) else l ++ [(k, v)]

/-- `d.pop(k, None)` — remove every binding of `k`. -/
def alistErase {α : Type} (l : List (String × α)) (k : String) :
    List (String × α) :=
  match l with
  | [] => []
  | (k', v) :: t => if k' = k then alistErase t k else (k', v) :: alistErase t k

theorem alistGet_upd_self {α : Type} (l : List (String × α)) (k : String)
    (f : α → α) : alistGet (alistUpd l k f) k = (alistGet l k).map f := by
  induction l with
  | nil => rfl
  | cons e t ih =>
    obtain ⟨k', v⟩ := e
    by_cases h : k' = k
    · simp [alistUpd, alistGet, h]
    · simp [alistUpd, alistGet, h, ih]

theorem alistGet_upd_ne {α : Type} (l : List (String × α)) (k k' : String)
    (f : α → α) (h : k ≠ k') : alistGet (alistUpd l k f) k' = alistGet l k' := by
  induction l with
  | nil => rfl
  | cons e t ih =>
    obtain ⟨k0, v⟩ := e
    by_cases h1 : k0 = k
    · subst h1
      have h2 : k0 ≠ k' := h
      simp [alistUpd, alistGet, h2, ih]
    · by_cases h2 : k0 = k'
      · subst h2
        have h3 : k0 ≠ k := h1
        simp [alistUpd, alistGet, h3]
      · simp [alistUpd, alistGet, h1, h2, ih]

theorem alistGet_append {α : Type} (l l' : List (String × α)) (k : String) :
    alistGet (l ++ l') k = ((alistGet l k).orElse (fun _ => alistGet l' k)) := by
  induction l with
  | nil => simp [alistGet]
  | cons e t ih =>
    obtain ⟨k0, v⟩ := e
    by_cases h : k0 = k <;> simp [alistGet, h, ih]

theorem alistGet_set_self {α : Type} (l : List (String × α)) (k : String)
    (v : α) : alistGet (alistSet l k v) k = some v := by
  unfold alistSet
  by_cases h : (alistGet l k).isSome
  · rw [if_pos h, alistGet_upd_self]
    cases hv : alistGet l k with
    | none => rw [hv] at h; simp at h
    | some w => simp
  · rw [if_neg h, alistGet_append]
    cases hv : alistGet l k with
    | none => simp [alistGet]
    | some w => rw [hv] at h; simp at h

theorem alistGet_set_ne {α : Type} (l : List (String × α)) (k k' : String)
    (v : α) (h : k ≠ k') : alistGet (alistSet l k v) k' = alistGet l k' := by
  unfold alistSet
  by_cases hs : (alistGet l k).isSome
  · rw [if_pos hs, alistGet_upd_ne _ _ _ _ h]
  · rw [if_neg hs, alistGet_append]
    cases hv : alistGet l k' with
    | none => simp [alistGet, h]
    | some w => simp

theorem alistGet_erase_self {α : Type} (l : List (String × α)) (k : String) :
    alistGet (alistErase l k) k = none := by
  induction l with
  | nil => rfl
  | cons e t ih =>
    obtain ⟨k0, v⟩ := e
    by_cases h : k0 = k
    · simpa [alistErase, h] using ih
    · simp [alistErase, alistGet, h, ih]

theorem alistGet_erase_ne {α : Type} (l : List (String × α)) (k k' : String)
    (h : k ≠ k') : alistGet (alistErase l k) k' = alistGet l k' := by
  induction l with
  | nil => rfl
  | cons e t ih =>
    obtain ⟨k0, v⟩ := e
    by_cases h1 : k0 = k
    · subst h1
      have h2 : k0 ≠ k' := h
      simp [alistErase, alistGet, h2, ih]
    · by_cases h2 : k0 = k'
      · subst h2
        have h3 : k0 ≠ k := h1
        simp [alistErase, alistGet, h3]
      · simp [alistErase, alistGet, h1, h2, ih]

/-! ## Data model (persisted documents of `bot.py`) -/

/-- One record of `user_database.json` (`ensure_user_record`). -/
structure UserRec where
  credits : Int
  trial_claimed : Bool
  trial_active : Bool
  is_admin : Bool
  last_daily : Int
  last_weekly : Int
deriving Repr, DecidableEq

/-- The lazy-insert default of `ensure_user_record` (missing cooldown keys
read as 0 through `.get(..., 0)`). -/
def defaultUser : UserRec :=
  { credits := 0, trial_claimed := false, trial_active := false,
    is_admin := false, last_daily := 0, last_weekly := 0 }

/-- One record of the `"vps"` map in `vps_data.json` (`create_vps_record`);
free-form metadata (snapshots, notes, ips, ...) is not needed by any claim. -/
structure VpsRec where
  id : String
  owner : String
  ram : Int
  cpu : Int
  storage : Int
  status : String
  shared_with : List String
  created_at : Int
  trial_expires : Option Int
deriving Repr, DecidableEq

/-- The `"purge"` singleton in `vps_data.json`. -/
structure PurgeState where
  active : Bool
  protected_vps : List String
  protected_users : List String
  message_id : Option Nat
  channel_id : Option Nat
  start_ts : Option Int
  end_ts : Option Int
deriving Repr, DecidableEq

/-- One entry of the `"protected"` list in `purge_protected.json`. -/
structure ProtRec where
  user_id : String
  emoji : String
  protected_at : Int
  expires_at : Int
deriving Repr, DecidableEq

/-- One record of `giveaways.json`. -/
structure GiveawayRec where
  message_id : Nat
  channel_id : Nat
  end_ts : Int
  amount : Int
  host_id : String
  created_at : Int
deriving Repr, DecidableEq

/-- In-memory state of the four documents, plus persistence counters: every
`save_user_db()` / `save_vps_data()` / `save_giveaways()` /
`save_purge_protected()` call bumps the matching counter. -/
structure Store where
  users : List (String × UserRec)
  vps : List (String × VpsRec)
  giveaways : List (String × GiveawayRec)
  prot_records : List ProtRec
  purge : PurgeState
  maintenance : Bool
  saveUsers : Nat
  saveVps : Nat
  saveGive : Nat
  saveProt : Nat
deriving Repr, DecidableEq

/-- The state `ensure_files` creates on first start. -/
def initialStore : Store :=
  { users := [], vps := [], giveaways := [], prot_records := [],
    purge := { active := false, protected_vps := [], protected_users := [],
               message_id := none, channel_id := none, start_ts := none, end_ts := none },
    maintenance := false,
    saveUsers := 0, saveVps := 0, saveGive := 0, saveProt := 0 }

/-- `USER_DB["users"].get(uid, {})` with zero-value defaults for reads. -/
def Store.userD (s : Store) (uid : String) : UserRec :=
  (alistGet s.users uid).getD defaultUser

/-- `USER_DB["users"].get(uid, {}).get("credits", 0)`. -/
def Store.creditsD (s : Store) (uid : String) : Int :=
  (s.userD uid).credits

/-! ## Lifecycle registry operations -/

/-- `ensure_user_record(user_id)` (bot.py:1220): lazy insert with
zero-value defaults, persisting only when it inserts. -/
def ensure_user_record (s : Store) (uid : String) : Store :=
  if (alistGet s.users uid).isSome then s
  else { s with users := s.users ++ [(uid, defaultUser)], saveUsers := s.saveUsers + 1 }

/-- The numeric values of the digit-only keys of the vps map
(`[int(x) for x in existing.keys() if x.isdigit()]`). -/
def vpsNums (vps : List (String × VpsRec)) : List Nat :=
  ((vps.map Prod.fst).filter pyIsDigit).map pyToNat

/-- `get_next_vps_id()` (bot.py:1246). -/
def get_next_vps_id (s : Store) : String :=
  if s.vps.isEmpty then "1"
  else
    let nums := vpsNums s.vps
    if nums.isEmpty then "1" else natToString (nums.foldr max 0 + 1)

/-- `create_vps_record(owner_id, ram, cpu, storage)` (bot.py:1254); the
provisioning shell-outs touch no store state and are omitted. -/
def create_vps_record (s : Store) (owner_id : String) (ram cpu storage : Int)
    (now : Int) : Store × String :=
  let vid := get_next_vps_id s
  let v : VpsRec :=
    { id := vid, owner := owner_id, ram := ram, cpu := cpu, storage := storage,
      status := "active", shared_with := [], created_at := now, trial_expires := none }
  ({ s with vps := alistSet s.vps vid v, saveVps := s.saveVps + 1 }, vid)

/-- `admin_add_credits` (`.adminc`, bot.py:1549): unconditional addition. -/
def admin_add_credits (s : Store) (uid : String) (amount : Int) : Store :=
  let s1 := ensure_user_record s uid
  { s1 with
    users := alistUpd s1.users uid (fun u => { u with credits := u.credits + amount }),
    saveUsers := s1.saveUsers + 1 }

/-- The `amount` argument of `.adminrc`: the literal `"all"` or a number. -/
inductive RemoveAmount
  | all
  | num (a : Int)
deriving Repr, DecidableEq

/-- `admin_remove_credits` (`.adminrc`, bot.py:1561): `"all"` zeroes the
balance, a number clamps at zero via `max(0, credits - a)`. -/
def admin_remove_credits (s : Store) (uid : String) (amount : RemoveAmount) : Store :=
  let s1 := ensure_user_record s uid
  match amount with
  | .all =>
      { s1 with
        users := alistUpd s1.users uid (fun u => { u with credits := 0 }),
        saveUsers := s1.saveUsers + 1 }
  | .num a =>
      { s1 with
        users := alistUpd s1.users uid (fun u => { u with credits := max 0 (u.credits - a) }),
        saveUsers := s1.saveUsers + 1 }

inductive TransferOutcome
  | notPositive
  | insufficient
  | ok
deriving Repr, DecidableEq

/-- `transfer` (`.transfer`, bot.py:2073). -/
def transfer (s : Store) (uid tid : String) (amount : Int) :
    Store × TransferOutcome :=
  if amount ≤ 0 then (s, .notPositive)
  else
    let s1 := ensure_user_record s uid
    let s2 := ensure_user_record s1 tid
    if (s2.userD uid).credits < amount then (s2, .insufficient)
    else
      let s3 := { s2 with
        users := alistUpd s2.users uid (fun u => { u with credits := u.credits - amount }) }
      let s4 := { s3 with
        users := alistUpd s3.users tid (fun u => { u with credits := u.credits + amount }) }
      ({ s4 with saveUsers := s4.saveUsers + 1 }, .ok)

/-- `.buywc` purchase flow (balance check, deduction, record creation). -/
def buy_plan (s : Store) (uid : String) (cost ram cpu storage now : Int) :
    Store × Option String :=
  let s1 := ensure_user_record s uid
  if (s1.userD uid).credits < cost then (s1, none)
  else
    let s2 := { s1 with
      users := alistUpd s1.users uid (fun u => { u with credits := u.credits - cost }) }
    let (s3, vid) := create_vps_record s2 uid ram cpu storage now
    ({ s3 with saveUsers := s3.saveUsers + 1 }, some vid)

/-- `.daily` (bot.py:2114). -/
def daily (s : Store) (uid : String) (now : Int) : Store :=
  let s1 := ensure_user_record s uid
  if now - (s1.userD uid).last_daily < 24 * 3600 then s1
  else
    { s1 with
      users := alistUpd s1.users uid
        (fun u => { u with credits := u.credits + 50, last_daily := now }),
      saveUsers := s1.saveUsers + 1 }

/-- `.weekly` (bot.py:2129). -/
def weekly (s : Store) (uid : String) (now : Int) : Store :=
  let s1 := ensure_user_record s uid
  if now - (s1.userD uid).last_weekly < 7 * 24 * 3600 then s1
  else
    { s1 with
      users := alistUpd s1.users uid
        (fun u => { u with credits := u.credits + 400, last_weekly := now }),
      saveUsers := s1.saveUsers + 1 }

/-! ## Trial lifecycle -/

inductive TrialOutcome
  | alreadyClaimed
  | granted (vid : String)
deriving Repr, DecidableEq

/-- The `.trial` self-claim flow (bot.py:1046-1084): the command rejects when
`trial_claimed` is set; otherwise the confirm button sets both flags, creates
the record, stamps `trial_expires = now + 3*24*3600` and `status = "trial"`,
awards the configured `trial_credits` bonus `tc` once (skipped when falsy),
persists both documents, and arms `schedule_trial_expiry(vid, end)`.
The third component is the armed deadline. -/
def trial_self_claim (s : Store) (uid : String) (now tc : Int) :
    Store × TrialOutcome × Option (String × Int) :=
  let s1 := ensure_user_record s uid
  if (s1.userD uid).trial_claimed then (s1, .alreadyClaimed, none)
  else
    let s2 := ensure_user_record s1 uid
    let s3 := { s2 with
      users := alistUpd s2.users uid
        (fun u => { u with trial_claimed := true, trial_active := true }) }
    let res := create_vps_record s3 uid 2 1 20 now
    let s4 := res.1
    let vid := res.2
    let endTs := now + 3 * 24 * 3600
    let s5 := { s4 with
      vps := alistUpd s4.vps vid
        (fun v => { v with trial_expires := some endTs, status := "trial" }) }
    let s6 := { s5 with
      users :=
        if tc ≠ 0 then
          alistUpd s5.users uid (fun u => { u with credits := u.credits + tc })
        else s5.users }
    ({ s6 with saveVps := s6.saveVps + 1, saveUsers := s6.saveUsers + 1 },
      .granted vid, some (vid, endTs))

/-- The owner-grant flow `ConfirmTrialView.confirm` (bot.py:1008-1037): same
effect as the self-claim, with record creation before the flag writes. -/
def trial_grant (s : Store) (uid : String) (now tc : Int) :
    Store × TrialOutcome × Option (String × Int) :=
  let s1 := ensure_user_record s uid
  if (s1.userD uid).trial_claimed then (s1, .alreadyClaimed, none)
  else
    let res := create_vps_record s1 uid 2 1 20 now
    let s2 := res.1
    let vid := res.2
    let endTs := now + 3 * 24 * 3600
    let s3 := { s2 with
      vps := alistUpd s2.vps vid
        (fun v => { v with trial_expires := some endTs, status := "trial" }) }
    let s4 := { s3 with
      users := alistUpd s3.users uid
        (fun u => { u with trial_claimed := true, trial_active := true }) }
    let s5 := { s4 with
      users :=
        if tc ≠ 0 then
          alistUpd s4.users uid (fun u => { u with credits := u.credits + tc })
        else s4.users }
    ({ s5 with saveVps := s5.saveVps + 1, saveUsers := s5.saveUsers + 1 },
      .granted vid, some (vid, endTs))

/-- `finalize_trial_vps(vid)` (bot.py:366): trial-expiry resolution.  A
missing record is benign completion; otherwise the record is removed, the
owner's `trial_active` flag is cleared (guarded by Python truthiness of
`owner`), and both documents are persisted. -/
def finalize_trial_vps (s : Store) (vid : String) : Store :=
  match alistGet s.vps vid with
  | none => s
  | some v =>
    let owner := v.owner
    let s1 := { s with vps := alistErase s.vps vid, saveVps := s.saveVps + 1 }
    if owner ≠ "" then
      let s2 := ensure_user_record s1 owner
      { s2 with
        users := alistUpd s2.users owner (fun u => { u with trial_active := false }),
        saveUsers := s2.saveUsers + 1 }
    else s1

/-! ## Giveaways -/

/-- Result of fetching the rallying message from the chat collaborator:
unreachable, or reachable with the list of non-bot accounts that reacted
with the designated marker. -/
inductive MsgFetch
  | unreachable
  | reached (reactors : List String)
deriving Repr, DecidableEq

/-- `finalize_giveaway_by_id(gid)` (bot.py:308).  `fetch` is the external
message fetch; `pick` resolves `random.choice` (index modulo the
participant count). -/
def finalize_giveaway_by_id (s : Store) (gid : String) (fetch : MsgFetch)
    (pick : Nat) : Store :=
  match alistGet s.giveaways gid with
  | none => s
  | some gw =>
    match fetch with
    | .unreachable =>
        { s with giveaways := alistErase s.giveaways gid, saveGive := s.saveGive + 1 }
    | .reached participants =>
        let s1 :=
          if h : 0 < participants.length then
            let winner := participants.get ⟨pick % participants.length, Nat.mod_lt _ h⟩
            let s0 := ensure_user_record s winner
            { s0 with
              users := alistUpd s0.users winner
                (fun u => { u with credits := u.credits + gw.amount }),
              saveUsers := s0.saveUsers + 1 }
          else s
        { s1 with giveaways := alistErase s1.giveaways gid, saveGive := s1.saveGive + 1 }

/-- `.giveawayc` (bot.py:1151): persists the record and spawns
`finalize_giveaway_by_id(gid)` as a task right away; the returned id marks
that spawned task. -/
def giveaway_credits (s : Store) (chId : Nat) (amount secs : Int) (msgId : Nat)
    (hostId : String) (now : Int) : Store × Option String :=
  if secs ≤ 0 then (s, none)
  else
    let endTs := now + secs
    let gid := natToString msgId
    let gw : GiveawayRec :=
      { message_id := msgId, channel_id := chId, end_ts := endTs,
        amount := amount, host_id := hostId, created_at := now }
    ({ s with giveaways := alistSet s.giveaways gid gw, saveGive := s.saveGive + 1 },
      some gid)

/-! ## Purge window, protection records and sweeps -/

/-- `on_raw_reaction_add` (bot.py:763): a non-bot reaction on the purge
rallying message replaces the user's protection record with one expiring
`now + 72*3600`. -/
def grant_protection (s : Store) (msgId : Nat) (userId emo : String)
    (now : Int) (isBot : Bool) : Store :=
  match s.purge.message_id, s.purge.channel_id with
  | some mid, some _ =>
    if msgId ≠ mid then s
    else if isBot then s
    else
      let r : ProtRec :=
        { user_id := userId, emoji := emo, protected_at := now,
          expires_at := now + 72 * 3600 }
      let lst := s.prot_records.filter (fun q => q.user_id ≠ userId)
      { s with prot_records := lst ++ [r], saveProt := s.saveProt + 1 }
  | _, _ => s

/-- `.dontpurgevps @user` (bot.py:1623): append to the explicit
protected-users list. -/
def dont_purge_user (s : Store) (uid : String) : Store :=
  { s with
    purge := { s.purge with protected_users := s.purge.protected_users ++ [uid] },
    saveVps := s.saveVps + 1 }

/-- `.dontpurgevps <vid>`: append to the explicit protected-vps list. -/
def dont_purge_vps (s : Store) (vid : String) : Store :=
  { s with
    purge := { s.purge with protected_vps := s.purge.protected_vps ++ [vid] },
    saveVps := s.saveVps + 1 }

/-- `RemoveProtectionConfirm.confirm` (bot.py:1661), user branch. -/
def remove_protection_user (s : Store) (uid : String) : Store :=
  if uid ∈ s.purge.protected_users then
    { s with
      purge := { s.purge with protected_users := s.purge.protected_users.erase uid },
      saveVps := s.saveVps + 1 }
  else s

/-- `RemoveProtectionConfirm.confirm`, vps branch. -/
def remove_protection_vps (s : Store) (vid : String) : Store :=
  if vid ∈ s.purge.protected_vps then
    { s with
      purge := { s.purge with protected_vps := s.purge.protected_vps.erase vid },
      saveVps := s.saveVps + 1 }
  else s

/-- Accounts holding a non-expired protection record
(`expires_at >= now`, bot.py:1895-1901). -/
def purge_protected_user_ids (s : Store) (now : Int) : List String :=
  (s.prot_records.filter (fun r => now ≤ r.expires_at)).map ProtRec.user_id

/-- The keep-test of the deferred sweep (bot.py:1910). -/
def scheduledKeep (s : Store) (now : Int) (e : String × VpsRec) : Bool :=
  s.purge.protected_vps.contains e.1 || s.purge.protected_users.contains e.2.owner ||
    (purge_protected_user_ids s now).contains e.2.owner

/-- `execute_scheduled_purge` (bot.py:1888): the deferred sweep.  The
`for ... pop` loop over a snapshot of the dict keeps exactly the entries
passing the keep-test; the document is persisted once afterwards.  Returns
the removed ids.  The routine does not touch `purge["active"]`. -/
def execute_scheduled_purge (s : Store) (now : Int) : Store × List String :=
  let removed := (s.vps.filter (fun e => !scheduledKeep s now e)).map Prod.fst
  ({ s with vps := s.vps.filter (scheduledKeep s now), saveVps := s.saveVps + 1 },
    removed)

/-- The keep-test of the immediate sweep inside `purge_start`
(bot.py:1825-1829): only the two explicit allow-lists are consulted. -/
def startKeep (s : Store) (e : String × VpsRec) : Bool :=
  s.purge.protected_vps.contains e.1 || s.purge.protected_users.contains e.2.owner

/-- `purge_start` (`.purgestart`, bot.py:1766): marks the window active,
records the rallying-message reference and the 72h window, arms
`schedule_purge_expiry(end_ts)`, then runs the immediate sweep over the
explicit allow-lists, persists, clears the active flag and persists again
(five `save_vps_data()` calls in all).  Returns the removed ids. -/
def purge_start (s : Store) (now : Int) (msgId chId : Nat) : Store × List String :=
  let s1 := { s with purge := { s.purge with active := true }, saveVps := s.saveVps + 1 }
  let s2 := { s1 with
    purge := { s1.purge with message_id := some msgId, channel_id := some chId },
    saveVps := s1.saveVps + 1 }
  let endTs := now + 72 * 3600
  let s3 := { s2 with
    purge := { s2.purge with start_ts := some now, end_ts := some endTs },
    saveVps := s2.saveVps + 1 }
  let removed := (s3.vps.filter (fun e => !startKeep s3 e)).map Prod.fst
  let s4 := { s3 with vps := s3.vps.filter (startKeep s3), saveVps := s3.saveVps + 1 }
  let s5 := { s4 with purge := { s4.purge with active := false }, saveVps := s4.saveVps + 1 }
  (s5, removed)

/-! ## Other VPS mutations -/

/-- `ConfirmView.confirm` (bot.py:1956): delete a VPS record. -/
def delete_vps (s : Store) (vid : String) : Store :=
  { s with vps := alistErase s.vps vid, saveVps := s.saveVps + 1 }

/-- The Start/Stop buttons, `.suspendvps` selection and `.unsuspend`
(bot.py:473-493, 1705-1714, 1753-1763): set the status of an existing
record.  All call sites use `"active"`, `"stopped"` or `"suspended"`. -/
def set_vps_status (s : Store) (vid status : String) : Store :=
  if (alistGet s.vps vid).isSome then
    { s with
      vps := alistUpd s.vps vid (fun v => { v with status := status }),
      saveVps := s.saveVps + 1 }
  else s

/-- `.stopall` (bot.py:1738): stop every record unless maintenance is on. -/
def stop_all (s : Store) : Store :=
  if s.maintenance then { s with saveVps := s.saveVps + 1 }
  else
    { s with
      vps := s.vps.map (fun e => (e.1, { e.2 with status := "stopped" })),
      saveVps := s.saveVps + 1 }

/-- `.maintenance on/off` (bot.py:3045). -/
def maintenance_toggle (s : Store) (mode : Bool) : Store :=
  if mode then
    { s with
      maintenance := true,
      vps := s.vps.map (fun e => (e.1, { e.2 with status := "stopped" })),
      saveVps := s.saveVps + 1 }
  else { s with maintenance := false, saveVps := s.saveVps + 1 }

/-- `.shareuser` (bot.py:2547). -/
def share_user (s : Store) (uid vid : String) : Store :=
  match alistGet s.vps vid with
  | none => s
  | some v =>
    if v.shared_with.contains uid then s
    else
      { s with
        vps := alistUpd s.vps vid (fun w => { w with shared_with := w.shared_with ++ [uid] }),
        saveVps := s.saveVps + 1 }

/-- `.shareruser` (bot.py:2563). -/
def revoke_shared_user (s : Store) (uid vid : String) : Store :=
  match alistGet s.vps vid with
  | none => s
  | some v =>
    if v.shared_with.contains uid then
      { s with
        vps := alistUpd s.vps vid (fun w => { w with shared_with := w.shared_with.erase uid }),
        saveVps := s.saveVps + 1 }
    else s

/-! ## Deadline scheduler -/

/-- `schedule_trial_expiry(vid, end_ts)` (bot.py:401) sleeps
`max(0, end_ts - now)` before running `finalize_trial_vps(vid)`. -/
def schedule_trial_expiry_wait (end_ts now : Int) : Int := max 0 (end_ts - now)

/-- `schedule_purge_expiry(end_ts, ...)` (bot.py:1879) sleeps
`max(0, end_ts - now)` before running `execute_scheduled_purge`. -/
def schedule_purge_expiry_wait (end_ts now : Int) : Int := max 0 (end_ts - now)

/-- `finalize_giveaway(message, channel, end_ts)` (bot.py:273) would sleep
`max(0, end_ts - now)` — but no call site of the repository ever invokes
it; giveaways are finalized through `finalize_giveaway_by_id`. -/
def finalize_giveaway_orphan_wait (end_ts now : Int) : Int := max 0 (end_ts - now)

/-- A concurrency unit spawned with `asyncio.create_task`. -/
inductive Spawned
  | giveawayTask (gid : String)
  | trialTimer (vid : String) (end_ts : Int)
  | purgeTimer (end_ts : Int)
deriving Repr, DecidableEq

/-- Suspension each spawned unit performs before its resolver body runs:
`schedule_trial_expiry` / `schedule_purge_expiry` sleep until their
deadline, while `finalize_giveaway_by_id` is spawned directly and contains
no sleep at all, so its body runs at the next scheduling opportunity. -/
def spawnWait (t : Spawned) (now : Int) : Int :=
  match t with
  | .giveawayTask _ => 0
  | .trialTimer _ e => schedule_trial_expiry_wait e now
  | .purgeTimer e => schedule_purge_expiry_wait e now

/-- The deadline of the domain record a spawned unit is meant to resolve. -/
def spawnDeadline (s : Store) (t : Spawned) : Option Int :=
  match t with
  | .giveawayTask gid => (alistGet s.giveaways gid).map GiveawayRec.end_ts
  | .trialTimer _ e => some e
  | .purgeTimer e => some e

/-- Startup recovery in `on_ready` (bot.py:744-759): spawn
`finalize_giveaway_by_id(gid)` for every stored giveaway and
`schedule_trial_expiry(vid, end_ts)` for every record carrying a truthy
`trial_expires`. -/
def on_ready_tasks (s : Store) : List Spawned :=
  (s.giveaways.map (fun e => Spawned.giveawayTask e.1)) ++
    (s.vps.filterMap (fun e =>
      match e.2.trial_expires with
      | some ts => if ts ≠ 0 then some (Spawned.trialTimer e.1 ts) else none
      | none => none))

/-! ## Basic facts about the registry operations -/

theorem alistGet_eq_none_iff {α : Type} (l : List (String × α)) (k : String) :
    alistGet l k = none ↔ k ∉ l.map Prod.fst := by
  induction l with
  | nil => simp [alistGet]
  | cons e t ih =>
    obtain ⟨k0, v⟩ := e
    by_cases h : k0 = k
    · subst h
      simp [alistGet]
    · have hk : ¬k = k0 := fun hh => h hh.symm
      simp [alistGet, h, ih, hk]

theorem ensure_user_record_vps (s : Store) (uid : String) :
    (ensure_user_record s uid).vps = s.vps := by
  unfold ensure_user_record
  split <;> rfl

theorem ensure_user_record_giveaways (s : Store) (uid : String) :
    (ensure_user_record s uid).giveaways = s.giveaways := by
  unfold ensure_user_record
  split <;> rfl

theorem ensure_user_record_purge (s : Store) (uid : String) :
    (ensure_user_record s uid).purge = s.purge := by
  unfold ensure_user_record
  split <;> rfl

theorem alistGet_ensure_self (s : Store) (uid : String) :
    alistGet (ensure_user_record s uid).users uid = some (s.userD uid) := by
  unfold ensure_user_record Store.userD
  cases hv : alistGet s.users uid with
  | none =>
    rw [if_neg (by simp [hv])]
    simp [alistGet_append, hv, alistGet]
  | some v =>
    rw [if_pos (by simp [hv]), hv]
    rfl

theorem userD_ensure (s : Store) (uid k : String) :
    (ensure_user_record s uid).userD k = s.userD k := by
  unfold ensure_user_record
  by_cases h : (alistGet s.users uid).isSome
  · rw [if_pos h]
  · rw [if_neg h]
    unfold Store.userD
    show (alistGet (s.users ++ [(uid, defaultUser)]) k).getD defaultUser = _
    rw [alistGet_append]
    cases hv : alistGet s.users k with
    | none =>
      by_cases hk : uid = k
      · subst hk
        cases hu : alistGet s.users uid with
        | none => simp [alistGet]
        | some v => rw [hu] at h; simp at h
      · simp [alistGet, hk]
    | some v => simp

theorem creditsD_ensure (s : Store) (uid k : String) :
    (ensure_user_record s uid).creditsD k = s.creditsD k := by
  unfold Store.creditsD
  rw [userD_ensure]

theorem userD_upd_self (s : Store) (uid : String) (f : UserRec → UserRec)
    (h : (alistGet s.users uid).isSome) :
    ({ s with users := alistUpd s.users uid f } : Store).userD uid = f (s.userD uid) := by
  unfold Store.userD
  show (alistGet (alistUpd s.users uid f) uid).getD defaultUser = _
  rw [alistGet_upd_self]
  cases hv : alistGet s.users uid with
  | none => rw [hv] at h; simp at h
  | some v => simp

theorem userD_upd_ne (s : Store) (uid k : String) (f : UserRec → UserRec)
    (h : uid ≠ k) :
    ({ s with users := alistUpd s.users uid f } : Store).userD k = s.userD k := by
  unfold Store.userD
  show (alistGet (alistUpd s.users uid f) k).getD defaultUser = _
  rw [alistGet_upd_ne _ _ _ _ h]

/-- Sum of all stored credit balances (accounts never stored count 0). -/
def totalCredits (s : Store) : Int :=
  s.users.foldr (fun e a => e.2.credits + a) 0

theorem totalCredits_ensure (s : Store) (uid : String) :
    totalCredits (ensure_user_record s uid) = totalCredits s := by
  unfold ensure_user_record
  by_cases h : (alistGet s.users uid).isSome
  · rw [if_pos h]
  · rw [if_neg h]
    unfold totalCredits
    show (s.users ++ [(uid, defaultUser)]).foldr (fun e a => e.2.credits + a) 0 =
      s.users.foldr (fun e a => e.2.credits + a) 0
    rw [List.foldr_append]
    norm_num [defaultUser]

theorem alistUpd_of_get_none {α : Type} (l : List (String × α)) (k : String)
    (f : α → α) (h : alistGet l k = none) : alistUpd l k f = l := by
  induction l with
  | nil => rfl
  | cons e t ih =>
    obtain ⟨k0, v⟩ := e
    by_cases hk : k0 = k
    · rw [alistGet, if_pos hk] at h
      exact absurd h (by simp)
    · rw [alistGet, if_neg hk] at h
      simp [alistUpd, hk, ih h]

theorem foldr_credits_upd (l : List (String × UserRec)) (uid : String)
    (f : UserRec → UserRec) (hnd : (l.map Prod.fst).Nodup) (v : UserRec)
    (hv : alistGet l uid = some v) :
    (alistUpd l uid f).foldr (fun e a => e.2.credits + a) 0 =
      l.foldr (fun e a => e.2.credits + a) 0 + ((f v).credits - v.credits) := by
  induction l with
  | nil => simp [alistGet] at hv
  | cons e t ih =>
    obtain ⟨k0, w⟩ := e
    simp only [List.map_cons, List.nodup_cons] at hnd
    by_cases hk : k0 = uid
    · subst hk
      rw [alistGet, if_pos rfl] at hv
      injection hv with hv
      subst hv
      have ht : alistGet t k0 = none := (alistGet_eq_none_iff t k0).mpr hnd.1
      rw [alistUpd, if_pos rfl, alistUpd_of_get_none t k0 f ht]
      simp only [List.foldr_cons]
      ring
    · rw [alistGet, if_neg hk] at hv
      rw [alistUpd, if_neg hk]
      simp only [List.foldr_cons]
      rw [ih hnd.2 hv]
      ring

theorem totalCredits_upd (s : Store) (uid : String) (f : UserRec → UserRec)
    (hnd : (s.users.map Prod.fst).Nodup) (v : UserRec)
    (hv : alistGet s.users uid = some v) :
    totalCredits { s with users := alistUpd s.users uid f } =
      totalCredits s + ((f v).credits - v.credits) := by
  unfold totalCredits
  exact foldr_credits_upd s.users uid f hnd v hv

theorem map_fst_alistUpd {α : Type} (l : List (String × α)) (k : String)
    (f : α → α) : (alistUpd l k f).map Prod.fst = l.map Prod.fst := by
  induction l with
  | nil => rfl
  | cons e t ih =>
    obtain ⟨k0, v⟩ := e
    by_cases h : k0 = k <;> simp [alistUpd, h, ih]

theorem nodup_keys_ensure (s : Store) (uid : String)
    (hnd : (s.users.map Prod.fst).Nodup) :
    ((ensure_user_record s uid).users.map Prod.fst).Nodup := by
  unfold ensure_user_record
  by_cases h : (alistGet s.users uid).isSome
  · rwa [if_pos h]
  · rw [if_neg h]
    have : alistGet s.users uid = none := by
      cases hv : alistGet s.users uid with
      | none => rfl
      | some v => rw [hv] at h; simp at h
    have hmem : uid ∉ s.users.map Prod.fst := (alistGet_eq_none_iff _ _).mp this
    simp [List.nodup_append, hmem, hnd]

theorem totalCredits_users_eq (s s' : Store) (h : s'.users = s.users) :
    totalCredits s' = totalCredits s := by
  unfold totalCredits
  rw [h]

/-! ## Claim C4 — credit adjustment -/

/-- A store holding one account `"u"` with 30 credits. -/
def c4Store : Store :=
  { initialStore with users := [("u", { defaultUser with credits := 30 })] }

/-- Claim C4, counterexample.  `.adminrc u 50` on a balance of 30 does not
reject the call: it clamps the balance to 0 (so the numeric path clamps,
not only the "remove all" path, and the balance does change).  Moreover
`.adminc u -50` drives the balance to -20 < 0. -/
theorem admin_credits_no_reject_counterexample :
    c4Store.creditsD "u" = 30 ∧
    (admin_remove_credits c4Store "u" (RemoveAmount.num 50)).creditsD "u" = 0 ∧
    (admin_add_credits c4Store "u" (-50)).creditsD "u" = -20 := by
  decide

/-- Claim C4 (amended): `admin_remove_credits` never rejects — the numeric
path clamps the balance to `max 0 (balance - amount)` (hence never
negative) and the "remove all" path zeroes it; `admin_add_credits` adds its
delta unconditionally, so a negative delta can leave a negative balance;
other accounts are never touched. -/
theorem admin_credits_clamp_and_unchecked_add (s : Store) (u : String) (a : Int) :
    (admin_remove_credits s u (RemoveAmount.num a)).creditsD u
      = max 0 (s.creditsD u - a) ∧
    0 ≤ (admin_remove_credits s u (RemoveAmount.num a)).creditsD u ∧
    (admin_remove_credits s u RemoveAmount.all).creditsD u = 0 ∧
    (admin_add_credits s u a).creditsD u = s.creditsD u + a ∧
    (∀ k, k ≠ u →
      (admin_remove_credits s u (RemoveAmount.num a)).creditsD k = s.creditsD k ∧
      (admin_remove_credits s u RemoveAmount.all).creditsD k = s.creditsD k ∧
      (admin_add_credits s u a).creditsD k = s.creditsD k) := by
  refine ⟨?_, ?_, ?_, ?_, ?_⟩
  · show ((alistGet (alistUpd (ensure_user_record s u).users u _) u).getD defaultUser).credits = _
    rw [alistGet_upd_self, alistGet_ensure_self]
    rfl
  · show 0 ≤ ((alistGet (alistUpd (ensure_user_record s u).users u _) u).getD defaultUser).credits
    rw [alistGet_upd_self, alistGet_ensure_self]
    exact le_max_left _ _
  · show ((alistGet (alistUpd (ensure_user_record s u).users u _) u).getD defaultUser).credits = 0
    rw [alistGet_upd_self, alistGet_ensure_self]
    rfl
  · show ((alistGet (alistUpd (ensure_user_record s u).users u _) u).getD defaultUser).credits = _
    rw [alistGet_upd_self, alistGet_ensure_self]
    rfl
  · intro k hk
    have hne : u ≠ k := fun hh => hk hh.symm
    refine ⟨?_, ?_, ?_⟩ <;>
    · show ((alistGet (alistUpd (ensure_user_record s u).users u _) k).getD defaultUser).credits = _
      rw [alistGet_upd_ne _ _ _ _ hne]
      have := userD_ensure s u k
      unfold Store.userD at this
      unfold Store.creditsD Store.userD
      rw [this]

/-- Claim C4, witness for the amended theorem at the concrete store. -/
theorem admin_credits_clamp_witness :
    (admin_remove_credits c4Store "u" (RemoveAmount.num 50)).creditsD "u"
      = max 0 (c4Store.creditsD "u" - 50) ∧
    (admin_add_credits c4Store "u" (-50)).creditsD "w" = c4Store.creditsD "w" :=
  ⟨(admin_credits_clamp_and_unchecked_add c4Store "u" 50).1,
    ((admin_credits_clamp_and_unchecked_add c4Store "u" (-50)).2.2.2.2 "w"
      (by decide)).2.2⟩

theorem alistGet_ensure_of_isSome (s : Store) (uid k : String)
    (h : (alistGet s.users k).isSome) :
    alistGet (ensure_user_record s uid).users k = alistGet s.users k := by
  unfold ensure_user_record
  split
  · rfl
  · show alistGet (s.users ++ [(uid, defaultUser)]) k = _
    rw [alistGet_append]
    cases hv : alistGet s.users k with
    | none => rw [hv] at h; simp at h
    | some v => simp

/-! ## Claim C10 — credit transfer -/

/-- Claim C10: `transfer` rejects non-positive amounts and insufficient
balances without changing any balance, moves exactly `amount` from sender
to recipient otherwise, and conserves the total credit supply in every
case. -/
theorem transfer_exact_and_conserving (s : Store) (uid tid : String)
    (amount : Int) (hnd : (s.users.map Prod.fst).Nodup) :
    (amount ≤ 0 → transfer s uid tid amount = (s, TransferOutcome.notPositive)) ∧
    (0 < amount → s.creditsD uid < amount →
      (transfer s uid tid amount).2 = TransferOutcome.insufficient ∧
      ∀ u, (transfer s uid tid amount).1.creditsD u = s.creditsD u) ∧
    (0 < amount → amount ≤ s.creditsD uid → uid ≠ tid →
      (transfer s uid tid amount).2 = TransferOutcome.ok ∧
      (transfer s uid tid amount).1.creditsD uid = s.creditsD uid - amount ∧
      (transfer s uid tid amount).1.creditsD tid = s.creditsD tid + amount ∧
      ∀ u, u ≠ uid → u ≠ tid →
        (transfer s uid tid amount).1.creditsD u = s.creditsD u) ∧
    totalCredits (transfer s uid tid amount).1 = totalCredits s := by
  by_cases hpos : amount ≤ 0
  · refine ⟨fun _ => ?_, fun h _ => absurd hpos (not_le.mpr h),
      fun h _ _ => absurd hpos (not_le.mpr h), ?_⟩
    · unfold transfer
      rw [if_pos hpos]
    · unfold transfer
      rw [if_pos hpos]
  · have hbal : ((ensure_user_record (ensure_user_record s uid) tid).userD uid).credits
        = s.creditsD uid := by
      rw [userD_ensure, userD_ensure]
      rfl
    by_cases hins : s.creditsD uid < amount
    · have hred : transfer s uid tid amount =
          (ensure_user_record (ensure_user_record s uid) tid,
            TransferOutcome.insufficient) := by
        unfold transfer
        rw [if_neg hpos, if_pos (by rw [hbal]; exact hins)]
      refine ⟨fun h => absurd h hpos, fun _ _ => ⟨by rw [hred], fun u => ?_⟩,
        fun _ h _ => absurd hins (not_lt.mpr h), ?_⟩
      · rw [hred]
        show (ensure_user_record (ensure_user_record s uid) tid).creditsD u = _
        rw [creditsD_ensure, creditsD_ensure]
      · rw [hred]
        show totalCredits (ensure_user_record (ensure_user_record s uid) tid) = _
        rw [totalCredits_ensure, totalCredits_ensure]
    · -- successful branch
      have hins' : ¬((ensure_user_record (ensure_user_record s uid) tid).userD uid).credits
          < amount := by rw [hbal]; exact hins
      have hget1uid : alistGet (ensure_user_record s uid).users uid
          = some (s.userD uid) := alistGet_ensure_self s uid
      have hget2uid : alistGet (ensure_user_record (ensure_user_record s uid) tid).users uid
          = some (s.userD uid) := by
        rw [alistGet_ensure_of_isSome _ _ _ (by rw [hget1uid]; rfl), hget1uid]
      have hget2tid : alistGet (ensure_user_record (ensure_user_record s uid) tid).users tid
          = some ((ensure_user_record s uid).userD tid) := alistGet_ensure_self _ _
      have husers : (transfer s uid tid amount).1.users =
          alistUpd (alistUpd (ensure_user_record (ensure_user_record s uid) tid).users uid
            (fun u => { u with credits := u.credits - amount })) tid
            (fun u => { u with credits := u.credits + amount }) := by
        unfold transfer
        rw [if_neg hpos, if_neg hins']
      have hout : (transfer s uid tid amount).2 = TransferOutcome.ok := by
        unfold transfer
        rw [if_neg hpos, if_neg hins']
      refine ⟨fun h => absurd h hpos, fun _ h => absurd h hins, fun _ _ hne => ?_, ?_⟩
      · refine ⟨hout, ?_, ?_, ?_⟩
        · simp only [Store.creditsD, Store.userD, husers]
          rw [alistGet_upd_ne _ _ _ _ (fun hh => hne hh.symm), alistGet_upd_self, hget2uid]
          rfl
        · simp only [Store.creditsD, Store.userD, husers]
          rw [alistGet_upd_self, alistGet_upd_ne _ _ _ _ hne, hget2tid, userD_ensure]
          rfl
        · intro u hu1 hu2
          simp only [Store.creditsD, Store.userD, husers]
          rw [alistGet_upd_ne _ _ _ _ (fun hh => hu2 hh.symm),
            alistGet_upd_ne _ _ _ _ (fun hh => hu1 hh.symm)]
          have h1 := userD_ensure (ensure_user_record s uid) tid u
          have h2 := userD_ensure s uid u
          unfold Store.userD at h1 h2
          rw [h1, h2]
      · -- conservation
        have hnd2 : ((ensure_user_record (ensure_user_record s uid) tid).users.map
            Prod.fst).Nodup := nodup_keys_ensure _ _ (nodup_keys_ensure _ _ hnd)
        have hnd3 : ((alistUpd (ensure_user_record (ensure_user_record s uid) tid).users uid
            (fun u => { u with credits := u.credits - amount })).map Prod.fst).Nodup := by
          rw [map_fst_alistUpd]
          exact hnd2
        have hsometid : ∃ w, alistGet (alistUpd
            (ensure_user_record (ensure_user_record s uid) tid).users uid
            (fun u => { u with credits := u.credits - amount })) tid = some w := by
          by_cases h : uid = tid
          · subst h
            rw [alistGet_upd_self, hget2uid]
            exact ⟨_, rfl⟩
          · rw [alistGet_upd_ne _ _ _ _ h, hget2tid]
            exact ⟨_, rfl⟩
        obtain ⟨w, hw⟩ := hsometid
        unfold totalCredits
        rw [husers]
        rw [foldr_credits_upd _ tid _ hnd3 w hw,
          foldr_credits_upd _ uid _ hnd2 (s.userD uid) hget2uid]
        have hbase : (ensure_user_record (ensure_user_record s uid) tid).users.foldr
            (fun e a => e.2.credits + a) 0 = s.users.foldr (fun e a => e.2.credits + a) 0 := by
          have := totalCredits_ensure (ensure_user_record s uid) tid
          have h2 := totalCredits_ensure s uid
          unfold totalCredits at this h2
          rw [this, h2]
        rw [hbase]
        show s.users.foldr _ 0 + ((s.userD uid).credits - amount - (s.userD uid).credits)
            + (w.credits + amount - w.credits) = s.users.foldr _ 0
        ring

/-- A store with accounts `"a"` (100 credits) and `"b"` (5 credits). -/
def c10Store : Store :=
  { initialStore with users :=
      [("a", { defaultUser with credits := 100 }),
       ("b", { defaultUser with credits := 5 })] }

/-- Claim C10, witness: transferring 40 from `"a"` to `"b"`. -/
theorem transfer_witness :
    (transfer c10Store "a" "b" 40).1.creditsD "a" = c10Store.creditsD "a" - 40 ∧
    (transfer c10Store "a" "b" 40).1.creditsD "b" = c10Store.creditsD "b" + 40 ∧
    totalCredits (transfer c10Store "a" "b" 40).1 = totalCredits c10Store := by
  have h := transfer_exact_and_conserving c10Store "a" "b" 40 (by decide)
  exact ⟨(h.2.2.1 (by decide) (by decide) (by decide)).2.1,
    (h.2.2.1 (by decide) (by decide) (by decide)).2.2.1, h.2.2.2⟩

/-! ## Claim C2 — the deadline scheduler -/

/-- A store holding one pending giveaway (message id 100, deadline 4600). -/
def c2Store : Store :=
  { initialStore with giveaways :=
      [("100", { message_id := 100, channel_id := 5, end_ts := 4600,
                 amount := 100, host_id := "h", created_at := 1000 })] }

/-- Claim C2: the trial and purge timers do sleep `max(0, deadline - now)`,
but `finalize_giveaway_by_id` is spawned with no wait at all — both by
`.giveawayc` at creation and by the `on_ready` recovery — so at `now = 1000`
the giveaway resolver runs (and consumes the record) 3600 seconds before
its stored deadline 4600. -/
theorem giveaway_resolver_spawned_without_wait :
    schedule_trial_expiry_wait 4600 1000 = 3600 ∧
    schedule_purge_expiry_wait 4600 1000 = 3600 ∧
    on_ready_tasks c2Store = [Spawned.giveawayTask "100"] ∧
    spawnDeadline c2Store (Spawned.giveawayTask "100") = some 4600 ∧
    spawnWait (Spawned.giveawayTask "100") 1000 = 0 ∧
    (giveaway_credits initialStore 5 100 3600 100 "h" 1000).2 = some "100" ∧
    alistGet (finalize_giveaway_by_id c2Store "100" (MsgFetch.reached []) 0).giveaways
      "100" = none := by
  refine ⟨by decide, by decide, by decide, by decide, by decide, ?_, by decide⟩
  show (giveaway_credits initialStore 5 100 3600 100 "h" 1000).2 = some "100"
  decide

/-! ## Claim C7 — trial-expiry idempotence -/

/-- Claim C7: `finalize_trial_vps` is a no-op on a missing record, deletes
the record and clears the owner's `trial_active` flag when present, and is
idempotent: a second invocation for the same id leaves the store exactly
where the first left it. -/
theorem finalize_trial_idempotent (s : Store) (vid : String) :
    (alistGet s.vps vid = none → finalize_trial_vps s vid = s) ∧
    (∀ v, alistGet s.vps vid = some v →
      alistGet (finalize_trial_vps s vid).vps vid = none ∧
      (v.owner ≠ "" →
        ((finalize_trial_vps s vid).userD v.owner).trial_active = false)) ∧
    finalize_trial_vps (finalize_trial_vps s vid) vid = finalize_trial_vps s vid := by
  cases hv : alistGet s.vps vid with
  | none =>
    have hid : finalize_trial_vps s vid = s := by
      simp only [finalize_trial_vps, hv]
    refine ⟨fun _ => hid, ?_, ?_⟩
    · intro v hsome
      cases hsome
    · rw [hid, hid]
  | some v =>
    have hvps : (finalize_trial_vps s vid).vps = alistErase s.vps vid := by
      simp only [finalize_trial_vps, hv]
      by_cases ho : v.owner ≠ ""
      · rw [if_pos ho]
        simp [ensure_user_record_vps]
      · rw [if_neg ho]
    have hgone : alistGet (finalize_trial_vps s vid).vps vid = none := by
      rw [hvps, alistGet_erase_self]
    refine ⟨?_, ?_, ?_⟩
    · intro hn
      cases hn
    · intro w hw
      injection hw with hw
      subst hw
      refine ⟨hgone, fun ho => ?_⟩
      simp only [finalize_trial_vps, hv]
      rw [if_pos ho]
      show ((alistGet (alistUpd (ensure_user_record _ v.owner).users v.owner _)
        v.owner).getD defaultUser).trial_active = false
      rw [alistGet_upd_self, alistGet_ensure_self]
      rfl
    · conv_lhs => rw [finalize_trial_vps]
      rw [hgone]

/-- A trial VPS record owned by `"u"`. -/
def c7Rec : VpsRec :=
  { id := "1", owner := "u", ram := 2, cpu := 1, storage := 20,
    status := "trial", shared_with := [], created_at := 1000,
    trial_expires := some 260200 }

/-- A store holding one trial VPS `"1"` of owner `"u"`. -/
def c7Store : Store :=
  { initialStore with
    vps := [("1", c7Rec)],
    users := [("u", { defaultUser with trial_claimed := true, trial_active := true })] }

/-- Claim C7, witness at the concrete store. -/
theorem finalize_trial_idempotent_witness :
    alistGet (finalize_trial_vps c7Store "1").vps "1" = none ∧
    ((finalize_trial_vps c7Store "1").userD "u").trial_active = false ∧
    finalize_trial_vps (finalize_trial_vps c7Store "1") "1"
      = finalize_trial_vps c7Store "1" := by
  have h := finalize_trial_idempotent c7Store "1"
  have h2 := h.2.1 c7Rec rfl
  exact ⟨h2.1, h2.2 (by decide), h.2.2⟩

/-! ## Claim C6 — giveaway finalization -/

/-- Claim C6: finalizing a stored giveaway with zero qualifying reactors
changes no balance and still deletes the record; with a non-empty reactor
set exactly one reactor (the `random.choice` pick) gains the reward while
every other account is untouched; and the record is deleted afterwards in
every case, including an unreachable rallying message. -/
theorem giveaway_finalization_effect (s : Store) (gid : String)
    (gw : GiveawayRec) (pick : Nat)
    (hg : alistGet s.giveaways gid = some gw) :
    ((∀ u, (finalize_giveaway_by_id s gid (MsgFetch.reached []) pick).creditsD u
        = s.creditsD u) ∧
      alistGet (finalize_giveaway_by_id s gid (MsgFetch.reached []) pick).giveaways
        gid = none) ∧
    ((∀ u, (finalize_giveaway_by_id s gid MsgFetch.unreachable pick).creditsD u
        = s.creditsD u) ∧
      alistGet (finalize_giveaway_by_id s gid MsgFetch.unreachable pick).giveaways
        gid = none) ∧
    (∀ ps : List String, ∀ hps : 0 < ps.length,
      ps.get ⟨pick % ps.length, Nat.mod_lt _ hps⟩ ∈ ps ∧
      (finalize_giveaway_by_id s gid (MsgFetch.reached ps) pick).creditsD
          (ps.get ⟨pick % ps.length, Nat.mod_lt _ hps⟩)
        = s.creditsD (ps.get ⟨pick % ps.length, Nat.mod_lt _ hps⟩) + gw.amount ∧
      (∀ u, u ≠ ps.get ⟨pick % ps.length, Nat.mod_lt _ hps⟩ →
        (finalize_giveaway_by_id s gid (MsgFetch.reached ps) pick).creditsD u
          = s.creditsD u) ∧
      alistGet (finalize_giveaway_by_id s gid (MsgFetch.reached ps) pick).giveaways
        gid = none) := by
  have hempty : finalize_giveaway_by_id s gid (MsgFetch.reached []) pick
      = { s with giveaways := alistErase s.giveaways gid, saveGive := s.saveGive + 1 } := by
    simp [finalize_giveaway_by_id, hg]
  have hunreach : finalize_giveaway_by_id s gid MsgFetch.unreachable pick
      = { s with giveaways := alistErase s.giveaways gid, saveGive := s.saveGive + 1 } := by
    simp [finalize_giveaway_by_id, hg]
  refine ⟨⟨fun u => by rw [hempty]; rfl, by rw [hempty]; exact alistGet_erase_self _ _⟩,
    ⟨fun u => by rw [hunreach]; rfl, by rw [hunreach]; exact alistGet_erase_self _ _⟩, ?_⟩
  intro ps hps
  have hw : ps.get ⟨pick % ps.length, Nat.mod_lt _ hps⟩ ∈ ps := List.get_mem ps _ _
  set w := ps.get ⟨pick % ps.length, Nat.mod_lt _ hps⟩ with hwdef
  have hrun : finalize_giveaway_by_id s gid (MsgFetch.reached ps) pick
      = (let s0 := ensure_user_record s w
         let s1 : Store := { s0 with
           users := alistUpd s0.users w (fun u => { u with credits := u.credits + gw.amount }),
           saveUsers := s0.saveUsers + 1 }
         { s1 with giveaways := alistErase s1.giveaways gid, saveGive := s1.saveGive + 1 }) := by
    simp only [finalize_giveaway_by_id, hg]
    rw [dif_pos hps]
  refine ⟨hw, ?_, ?_, ?_⟩
  · rw [hrun]
    show ((alistGet (alistUpd (ensure_user_record s w).users w _) w).getD
      defaultUser).credits = _
    rw [alistGet_upd_self, alistGet_ensure_self]
    rfl
  · intro u hu
    rw [hrun]
    show ((alistGet (alistUpd (ensure_user_record s w).users w _) u).getD
      defaultUser).credits = _
    rw [alistGet_upd_ne _ _ _ _ (fun hh => hu hh.symm)]
    have := userD_ensure s w u
    unfold Store.userD at this
    rw [this]
    rfl
  · rw [hrun]
    show alistGet (alistErase (ensure_user_record s w).giveaways gid) gid = none
    exact alistGet_erase_self _ _

/-- A store holding a 100-credit giveaway `"100"` and three accounts. -/
def c6Gw : GiveawayRec :=
  { message_id := 100, channel_id := 5, end_ts := 4600, amount := 100,
    host_id := "h", created_at := 1000 }

def c6Store : Store :=
  { initialStore with
    giveaways := [("100", c6Gw)],
    users := [("A", defaultUser), ("B", defaultUser), ("C", defaultUser)] }

/-- Claim C6, witness: reactors A,B,C with pick 1 reward B with 100 and
leave A and C unchanged; the record is deleted. -/
theorem giveaway_finalization_witness :
    (finalize_giveaway_by_id c6Store "100" (MsgFetch.reached ["A", "B", "C"]) 1).creditsD "B"
      = c6Store.creditsD "B" + 100 ∧
    (finalize_giveaway_by_id c6Store "100" (MsgFetch.reached ["A", "B", "C"]) 1).creditsD "A"
      = c6Store.creditsD "A" ∧
    alistGet (finalize_giveaway_by_id c6Store "100"
      (MsgFetch.reached ["A", "B", "C"]) 1).giveaways "100" = none ∧
    (∀ u, (finalize_giveaway_by_id c6Store "100" (MsgFetch.reached []) 1).creditsD u
      = c6Store.creditsD u) := by
  have h := giveaway_finalization_effect c6Store "100" c6Gw 1 (by decide)
  have h3 := h.2.2 ["A", "B", "C"] (by decide)
  exact ⟨h3.2.1, h3.2.2.1 "A" (by decide), h3.2.2.2, h.1.1⟩

/-! ## Claims C1 and C8 — purge sweeps -/

/-- The Purge Protection Engine's membership test (spec section 4.5):
explicitly listed resource, explicitly listed account, or an account with a
non-expired protection record. -/
def isProtected (s : Store) (now : Int) (vid owner : String) : Bool :=
  s.purge.protected_vps.contains vid || s.purge.protected_users.contains owner ||
    s.prot_records.any (fun r => (r.user_id == owner) && decide (now ≤ r.expires_at))

theorem contains_protected_ids (l : List ProtRec) (now : Int) (owner : String) :
    ((l.filter (fun r => now ≤ r.expires_at)).map ProtRec.user_id).contains owner
      = l.any (fun r => (r.user_id == owner) && decide (now ≤ r.expires_at)) := by
  apply Bool.eq_iff_iff.mpr
  simp only [List.contains_eq_any_beq, List.any_eq_true, List.mem_map, List.mem_filter,
    beq_iff_eq, Bool.and_eq_true, decide_eq_true_eq]
  constructor
  · rintro ⟨x, ⟨r, ⟨hrl, hexp⟩, rfl⟩, hbeq⟩
    exact ⟨r, hrl, hbeq.symm, hexp⟩
  · rintro ⟨r, hrl, hown, hexp⟩
    exact ⟨r.user_id, ⟨r, ⟨hrl, hexp⟩, rfl⟩, hown.symm⟩

/-- The deferred sweep's keep-test agrees with `isProtected`. -/
theorem scheduledKeep_eq_isProtected (s : Store) (now : Int) (vid : String)
    (v : VpsRec) : scheduledKeep s now (vid, v) = isProtected s now vid v.owner := by
  unfold scheduledKeep isProtected purge_protected_user_ids
  rw [contains_protected_ids]

/-- Claim C1 (amended): the deferred sweep keeps exactly the records
satisfying `isProtected` and removes exactly the ids of the others; the
immediate sweep at purge start consults only the two explicit allow-lists,
so it keeps exactly the explicitly listed records and removes every other
id — protection records play no part in it. -/
theorem purge_sweeps_deletion_sets (s : Store) (now : Int) (msgId chId : Nat) :
    (∀ vid v, ((vid, v) ∈ (execute_scheduled_purge s now).1.vps ↔
      (vid, v) ∈ s.vps ∧ isProtected s now vid v.owner = true)) ∧
    (∀ vid, (vid ∈ (execute_scheduled_purge s now).2 ↔
      ∃ v, (vid, v) ∈ s.vps ∧ isProtected s now vid v.owner = false)) ∧
    (∀ vid v, ((vid, v) ∈ (purge_start s now msgId chId).1.vps ↔
      (vid, v) ∈ s.vps ∧
        (s.purge.protected_vps.contains vid
          || s.purge.protected_users.contains v.owner) = true)) ∧
    (∀ vid, (vid ∈ (purge_start s now msgId chId).2 ↔
      ∃ v, (vid, v) ∈ s.vps ∧
        (s.purge.protected_vps.contains vid
          || s.purge.protected_users.contains v.owner) = false)) := by
  refine ⟨?_, ?_, ?_, ?_⟩
  · intro vid v
    show (vid, v) ∈ s.vps.filter (scheduledKeep s now) ↔ _
    rw [List.mem_filter, scheduledKeep_eq_isProtected]
  · intro vid
    show vid ∈ (s.vps.filter (fun e => !scheduledKeep s now e)).map Prod.fst ↔ _
    simp only [List.mem_map, List.mem_filter]
    constructor
    · rintro ⟨⟨vid', v⟩, ⟨hmem, hkeep⟩, rfl⟩
      refine ⟨v, hmem, ?_⟩
      rw [← scheduledKeep_eq_isProtected]
      simpa using hkeep
    · rintro ⟨v, hmem, hprot⟩
      refine ⟨(vid, v), ⟨hmem, ?_⟩, rfl⟩
      rw [Bool.not_eq_true', scheduledKeep_eq_isProtected]
      exact hprot
  · intro vid v
    show (vid, v) ∈ s.vps.filter _ ↔ _
    rw [List.mem_filter]
    rfl
  · intro vid
    show vid ∈ (s.vps.filter _).map Prod.fst ↔ _
    simp only [List.mem_map, List.mem_filter]
    constructor
    · rintro ⟨⟨vid', v⟩, ⟨hmem, hkeep⟩, rfl⟩
      exact ⟨v, hmem, by rwa [Bool.not_eq_true'] at hkeep⟩
    · rintro ⟨v, hmem, hprot⟩
      refine ⟨(vid, v), ⟨hmem, ?_⟩, rfl⟩
      rw [Bool.not_eq_true']
      exact hprot

/-- A record owned by `"u"` with no explicit protection. -/
def c1Rec : VpsRec :=
  { id := "1", owner := "u", ram := 1, cpu := 1, storage := 1,
    status := "active", shared_with := [], created_at := 0, trial_expires := none }

/-- A protection record for `"u"` valid until 2000. -/
def c1Prot : ProtRec :=
  { user_id := "u", emoji := "x", protected_at := 500, expires_at := 2000 }

/-- A store where `"u"` holds a protection record valid until 2000. -/
def c1Store : Store :=
  { initialStore with
    vps := [("1", c1Rec)],
    prot_records := [c1Prot] }

/-- Claim C1, counterexample: at `now = 1000` the owner `"u"` satisfies
`isProtected` through a live protection record, yet the immediate sweep of
`purge_start` deletes VPS `"1"` — only the deferred sweep honours the
record. -/
theorem purge_start_ignores_protection_records :
    isProtected c1Store 1000 "1" "u" = true ∧
    alistGet (purge_start c1Store 1000 7 8).1.vps "1" = none ∧
    alistGet (execute_scheduled_purge c1Store 1000).1.vps "1" = some c1Rec := by
  decide

/-- Claim C1, witness for the amended theorem: the deferred sweep keeps the
protected record, the immediate sweep removes it. -/
theorem purge_sweeps_deletion_sets_witness :
    ("1", c1Rec) ∈ (execute_scheduled_purge c1Store 1000).1.vps ∧
    "1" ∈ (purge_start c1Store 1000 7 8).2 := by
  have h := purge_sweeps_deletion_sets c1Store 1000 7 8
  exact ⟨(h.1 "1" c1Rec).mpr ⟨by decide, by decide⟩,
    (h.2.2.2 "1").mpr ⟨c1Rec, by decide, by decide⟩⟩

/-- Claim C8 (amended): both sweeps persist a number of times independent of
the number of deletions — never per-deletion — but not "once": the
purge-start command persists five times in all (twice after its sweep), and
only it clears the active flag; the deferred sweep persists exactly once
and leaves the whole purge window, active flag included, untouched. -/
theorem purge_persistence_and_active_flag (s : Store) (now : Int)
    (msgId chId : Nat) :
    (purge_start s now msgId chId).1.purge.active = false ∧
    (purge_start s now msgId chId).1.saveVps = s.saveVps + 5 ∧
    (execute_scheduled_purge s now).1.saveVps = s.saveVps + 1 ∧
    (execute_scheduled_purge s now).1.purge = s.purge := by
  exact ⟨rfl, rfl, rfl, rfl⟩

/-- A store with the purge window still marked active and two records. -/
def c8Store : Store :=
  { initialStore with
    purge := { initialStore.purge with active := true },
    vps := [("1", c1Rec), ("2", { c1Rec with id := "2", owner := "w" })] }

/-- Claim C8, counterexample: the deferred sweep leaves a true active flag
true (it never writes it), and the immediate-sweep command persists five
times rather than once. -/
theorem scheduled_purge_keeps_active_flag :
    c8Store.purge.active = true ∧
    (execute_scheduled_purge c8Store 1000).1.purge.active = true ∧
    (purge_start c8Store 1000 7 8).1.saveVps = c8Store.saveVps + 5 := by
  decide

/-! ## Claim C5 — resource-id allocation -/

/-- `max(existing numeric ids)` with 0 for none (Python takes `max` only on
a non-empty list; the 0 default matches both "no records" branches). -/
def maxIdNat (vps : List (String × VpsRec)) : Nat :=
  (vpsNums vps).foldr max 0

theorem le_foldr_max (l : List Nat) (x : Nat) (h : x ∈ l) : x ≤ l.foldr max 0 := by
  induction l with
  | nil => cases h
  | cons a t ih =>
    rcases List.mem_cons.mp h with rfl | hm
    · exact le_max_left _ _
    · exact le_trans (ih hm) (le_max_right _ _)

/-- The allocated id always reads back as `max(existing numeric ids) + 1`. -/
theorem pyToNat_get_next (s : Store) :
    pyToNat (get_next_vps_id s) = maxIdNat s.vps + 1 := by
  unfold get_next_vps_id maxIdNat
  by_cases h1 : s.vps.isEmpty
  · rw [if_pos h1]
    have hnil : s.vps = [] := by
      cases hv : s.vps with
      | nil => rfl
      | cons a t => rw [hv] at h1; simp [List.isEmpty] at h1
    rw [hnil]
    decide
  · rw [if_neg h1]
    by_cases h2 : (vpsNums s.vps).isEmpty
    · rw [if_pos h2]
      have hnil : vpsNums s.vps = [] := by
        cases hv : vpsNums s.vps with
        | nil => rfl
        | cons a t => rw [hv] at h2; simp [List.isEmpty] at h2
      rw [hnil]
      decide
    · rw [if_neg h2]
      exact pyToNat_natToString _

theorem pyIsDigit_get_next (s : Store) : pyIsDigit (get_next_vps_id s) = true := by
  unfold get_next_vps_id
  by_cases h1 : s.vps.isEmpty
  · rw [if_pos h1]
    decide
  · rw [if_neg h1]
    by_cases h2 : (vpsNums s.vps).isEmpty
    · rw [if_pos h2]
      decide
    · rw [if_neg h2]
      exact pyIsDigit_natToString _

/-- The allocated id is never a key of the current map. -/
theorem get_next_fresh (s : Store) : alistGet s.vps (get_next_vps_id s) = none := by
  rw [alistGet_eq_none_iff]
  intro hmem
  have hval : pyToNat (get_next_vps_id s) ∈ vpsNums s.vps := by
    unfold vpsNums
    exact List.mem_map_of_mem _ (List.mem_filter.mpr ⟨hmem, pyIsDigit_get_next s⟩)
  have hle := le_foldr_max _ _ hval
  rw [pyToNat_get_next] at hle
  exact absurd hle (by unfold maxIdNat; omega)

theorem foldr_max_append_one (l : List Nat) (y : Nat) :
    (l ++ [y]).foldr max 0 = max (l.foldr max 0) y := by
  induction l with
  | nil => simp
  | cons a t ih =>
    simp only [List.cons_append, List.foldr_cons, ih]
    rw [max_assoc]

/-- Inserting the fresh id raises the numeric maximum to exactly it. -/
theorem maxIdNat_create (s : Store) (owner : String) (ram cpu storage now : Int) :
    maxIdNat (create_vps_record s owner ram cpu storage now).1.vps
      = maxIdNat s.vps + 1 := by
  have hfresh := get_next_fresh s
  have hset : (create_vps_record s owner ram cpu storage now).1.vps
      = s.vps ++ [(get_next_vps_id s,
          { id := get_next_vps_id s, owner := owner, ram := ram, cpu := cpu,
            storage := storage, status := "active", shared_with := [],
            created_at := now, trial_expires := none })] := by
    show alistSet s.vps (get_next_vps_id s) _ = _
    unfold alistSet
    rw [hfresh]
    rfl
  rw [hset]
  unfold maxIdNat vpsNums
  rw [List.map_append, List.filter_append, List.map_append]
  have hd : pyIsDigit (get_next_vps_id s) = true := pyIsDigit_get_next s
  show ((((s.vps.map Prod.fst).filter pyIsDigit).map pyToNat) ++
    (([(get_next_vps_id s)].filter pyIsDigit).map pyToNat)).foldr max 0 = _
  rw [List.filter_cons, if_pos hd]
  show ((((s.vps.map Prod.fst).filter pyIsDigit).map pyToNat) ++
    [pyToNat (get_next_vps_id s)]).foldr max 0 = _
  rw [foldr_max_append_one, pyToNat_get_next]
  show max (maxIdNat s.vps) (maxIdNat s.vps + 1) = maxIdNat s.vps + 1
  exact max_eq_right (Nat.le_succ _)

/-- A sequence of `create_vps_record` calls, one per argument tuple;
returns the final store and the allocated ids in order. -/
def createSeq (s : Store) (args : List (String × Int × Int × Int × Int)) :
    Store × List String :=
  match args with
  | [] => (s, [])
  | a :: t =>
    let res := create_vps_record s a.1 a.2.1 a.2.2.1 a.2.2.2.1 a.2.2.2.2
    let rest := createSeq res.1 t
    (rest.1, res.2 :: rest.2)

theorem createSeq_values (args : List (String × Int × Int × Int × Int)) :
    ∀ s : Store,
      (∀ x ∈ (createSeq s args).2, maxIdNat s.vps < pyToNat x) ∧
      List.Chain' (fun a b => pyToNat a < pyToNat b) (createSeq s args).2 := by
  induction args with
  | nil =>
    intro s
    constructor
    · intro x hx
      simp [createSeq] at hx
    · exact List.chain'_nil
  | cons a t ih =>
    intro s
    have hids : (createSeq s (a :: t)).2
        = (create_vps_record s a.1 a.2.1 a.2.2.1 a.2.2.2.1 a.2.2.2.2).2 ::
          (createSeq (create_vps_record s a.1 a.2.1 a.2.2.1 a.2.2.2.1 a.2.2.2.2).1 t).2 :=
      rfl
    have hhead : pyToNat (create_vps_record s a.1 a.2.1 a.2.2.1 a.2.2.2.1 a.2.2.2.2).2
        = maxIdNat s.vps + 1 := pyToNat_get_next s
    have hmax := maxIdNat_create s a.1 a.2.1 a.2.2.1 a.2.2.2.1 a.2.2.2.2
    have iht := ih (create_vps_record s a.1 a.2.1 a.2.2.1 a.2.2.2.1 a.2.2.2.2).1
    constructor
    · intro x hx
      rw [hids] at hx
      rcases List.mem_cons.mp hx with rfl | hm
      · omega
      · have := iht.1 x hm
        omega
    · rw [hids]
      rw [List.chain'_cons']
      refine ⟨?_, iht.2⟩
      intro y hy
      have hmem : y ∈ (createSeq (create_vps_record s a.1 a.2.1 a.2.2.1
          a.2.2.2.1 a.2.2.2.2).1 t).2 := List.mem_of_mem_head? hy
      have := iht.1 y hmem
      omega

/-- Claim C5: `create_vps_record` allocates `max(existing numeric ids) + 1`
("1" when no record exists), inserts an active record with empty
shared-with and the given timestamp under that id, persists once, and
returns the id; and across any sequence of calls the allocated ids are
strictly increasing numerically and pairwise distinct. -/
theorem create_resource_id_allocation (s : Store) (owner : String)
    (ram cpu storage now : Int) :
    pyToNat (create_vps_record s owner ram cpu storage now).2
      = maxIdNat s.vps + 1 ∧
    (s.vps = [] → (create_vps_record s owner ram cpu storage now).2 = "1") ∧
    alistGet (create_vps_record s owner ram cpu storage now).1.vps
        (create_vps_record s owner ram cpu storage now).2
      = some { id := (create_vps_record s owner ram cpu storage now).2,
               owner := owner, ram := ram, cpu := cpu, storage := storage,
               status := "active", shared_with := [], created_at := now,
               trial_expires := none } ∧
    (create_vps_record s owner ram cpu storage now).1.saveVps = s.saveVps + 1 ∧
    (∀ args : List (String × Int × Int × Int × Int),
      List.Chain' (fun a b => pyToNat a < pyToNat b) (createSeq s args).2 ∧
      (createSeq s args).2.Nodup) := by
  refine ⟨pyToNat_get_next s, ?_, ?_, rfl, ?_⟩
  · intro hnil
    show get_next_vps_id s = "1"
    unfold get_next_vps_id
    rw [if_pos (by rw [hnil]; rfl)]
  · exact alistGet_set_self _ _ _
  · intro args
    have h := createSeq_values args s
    refine ⟨h.2, ?_⟩
    haveI : IsTrans String (fun a b => pyToNat a < pyToNat b) :=
      ⟨fun a b c h1 h2 => lt_trans h1 h2⟩
    have hpw : (createSeq s args).2.Pairwise (fun a b => pyToNat a < pyToNat b) :=
      List.chain'_iff_pairwise.mp h.2
    have hne : (createSeq s args).2.Pairwise (fun a b => a ≠ b) :=
      hpw.imp (fun hlt heq => by rw [heq] at hlt; exact lt_irrefl _ hlt)
    exact hne

/-- Claim C5, witness: the first id on an empty store is `"1"`, and on a
store with ids 1 and 2 the next allocation reads back as max+1. -/
theorem create_resource_id_allocation_witness :
    (create_vps_record initialStore "u" 1 2 20 1000).2 = "1" ∧
    pyToNat (create_vps_record c8Store "u" 1 2 20 1000).2
      = maxIdNat c8Store.vps + 1 :=
  ⟨(create_resource_id_allocation initialStore "u" 1 2 20 1000).2.1 rfl,
    (create_resource_id_allocation c8Store "u" 1 2 20 1000).1⟩

theorem ensure_user_record_of_isSome (s : Store) (uid : String)
    (h : (alistGet s.users uid).isSome) : ensure_user_record s uid = s := by
  unfold ensure_user_record
  rw [if_pos h]

/-! ## Claim C3 — starting a trial -/

/-- Claim C3: a second `startTrial` for an account with `trial_claimed`
already set is rejected as "already claimed" and leaves the store exactly
unchanged (credits, flags and the resource map included); a first claim
creates the trial record with deadline `now + 72h`, sets both flags,
awards the configured bonus exactly once, and arms the deadline for that
resource id. -/
theorem start_trial_once (s : Store) (uid : String) (now tc : Int) :
    ((s.userD uid).trial_claimed = true →
      trial_self_claim s uid now tc = (s, TrialOutcome.alreadyClaimed, none)) ∧
    ((s.userD uid).trial_claimed = false →
      (trial_self_claim s uid now tc).2.1 = TrialOutcome.granted (get_next_vps_id s) ∧
      (trial_self_claim s uid now tc).2.2
        = some (get_next_vps_id s, now + 3 * 24 * 3600) ∧
      (∃ v : VpsRec,
        alistGet (trial_self_claim s uid now tc).1.vps (get_next_vps_id s) = some v ∧
        v.status = "trial" ∧ v.trial_expires = some (now + 3 * 24 * 3600) ∧
        v.owner = uid) ∧
      ((trial_self_claim s uid now tc).1.userD uid).trial_claimed = true ∧
      ((trial_self_claim s uid now tc).1.userD uid).trial_active = true ∧
      (trial_self_claim s uid now tc).1.creditsD uid = s.creditsD uid + tc) := by
  constructor
  · intro hclaimed
    have hsome : (alistGet s.users uid).isSome := by
      cases hv : alistGet s.users uid with
      | none =>
        unfold Store.userD at hclaimed
        rw [hv] at hclaimed
        cases hclaimed
      | some v => rfl
    have hens : ensure_user_record s uid = s := by
      unfold ensure_user_record
      rw [if_pos hsome]
    unfold trial_self_claim
    rw [hens, if_pos (by rw [hclaimed])]
  · intro hun
    have hcond : ((ensure_user_record s uid).userD uid).trial_claimed = false := by
      rw [userD_ensure]
      exact hun
    have hens2 : ensure_user_record (ensure_user_record s uid) uid
        = ensure_user_record s uid := by
      exact ensure_user_record_of_isSome _ _ (by rw [alistGet_ensure_self]; rfl)
    set s1 := ensure_user_record s uid with hs1
    set s3 : Store := { s1 with
      users := alistUpd s1.users uid
        (fun u => { u with trial_claimed := true, trial_active := true }) } with hs3
    have hrun : trial_self_claim s uid now tc =
        (let res := create_vps_record s3 uid 2 1 20 now
         let s4 := res.1
         let vid := res.2
         let endTs := now + 3 * 24 * 3600
         let s5 := { s4 with
           vps := alistUpd s4.vps vid
             (fun v => { v with trial_expires := some endTs, status := "trial" }) }
         let s6 := { s5 with
           users :=
             if tc ≠ 0 then
               alistUpd s5.users uid (fun u => { u with credits := u.credits + tc })
             else s5.users }
         ({ s6 with saveVps := s6.saveVps + 1, saveUsers := s6.saveUsers + 1 },
           TrialOutcome.granted vid, some (vid, endTs))) := by
      unfold trial_self_claim
      rw [if_neg (by rw [hcond]; exact Bool.false_ne_true), hens2]
    have hvps3 : s3.vps = s.vps := by
      rw [hs3]
      show s1.vps = s.vps
      rw [hs1]
      exact ensure_user_record_vps s uid
    have hnext3 : get_next_vps_id s3 = get_next_vps_id s := by
      unfold get_next_vps_id
      rw [hvps3]
    have hvpsF : (trial_self_claim s uid now tc).1.vps =
        alistUpd (alistSet s3.vps (get_next_vps_id s3)
          { id := get_next_vps_id s3, owner := uid, ram := 2, cpu := 1, storage := 20,
            status := "active", shared_with := [], created_at := now,
            trial_expires := none }) (get_next_vps_id s3)
          (fun v =>
            { v with
              trial_expires := some (now + 3 * 24 * 3600),
              status := "trial" }) := by
      rw [hrun]
      rfl
    have husersF : (trial_self_claim s uid now tc).1.users =
        (if tc ≠ 0 then
          alistUpd s3.users uid (fun u => { u with credits := u.credits + tc })
        else s3.users) := by
      rw [hrun]
      rfl
    have houtF : (trial_self_claim s uid now tc).2.1
        = TrialOutcome.granted (get_next_vps_id s3) := by
      rw [hrun]
      rfl
    have harmF : (trial_self_claim s uid now tc).2.2
        = some (get_next_vps_id s3, now + 3 * 24 * 3600) := by
      rw [hrun]
      rfl
    have hget3 : alistGet s3.users uid =
        some { (s.userD uid) with trial_claimed := true, trial_active := true } := by
      rw [hs3]
      show alistGet (alistUpd s1.users uid _) uid = _
      rw [alistGet_upd_self, hs1, alistGet_ensure_self]
      rfl
    have hgetF : ∀ g : UserRec → UserRec,
        alistGet (alistUpd s3.users uid g) uid =
          some (g { (s.userD uid) with trial_claimed := true, trial_active := true }) := by
      intro g
      rw [alistGet_upd_self, hget3]
      rfl
    refine ⟨by rw [houtF, hnext3], by rw [harmF, hnext3], ?_, ?_, ?_, ?_⟩
    · have hkey : alistGet (trial_self_claim s uid now tc).1.vps (get_next_vps_id s)
          = some { id := get_next_vps_id s, owner := uid, ram := 2, cpu := 1,
                   storage := 20, status := "trial", shared_with := [],
                   created_at := now,
                   trial_expires := some (now + 3 * 24 * 3600) } := by
        rw [hvpsF, hnext3, alistGet_upd_self, alistGet_set_self]
        rfl
      exact ⟨_, hkey, rfl, rfl, rfl⟩
    · unfold Store.userD
      rw [husersF]
      by_cases htc : tc ≠ 0
      · rw [if_pos htc, hgetF]
        rfl
      · rw [if_neg htc, hget3]
        rfl
    · unfold Store.userD
      rw [husersF]
      by_cases htc : tc ≠ 0
      · rw [if_pos htc, hgetF]
        rfl
      · rw [if_neg htc, hget3]
        rfl
    · unfold Store.creditsD Store.userD
      rw [husersF]
      by_cases htc : tc ≠ 0
      · rw [if_pos htc, hgetF]
        rfl
      · rw [if_neg htc, hget3]
        have : tc = 0 := by omega
        subst this
        show (s.userD uid).credits = (s.userD uid).credits + 0
        omega

/-- Claim C3, witness: on a fresh store the claim succeeds with id "1" and
a 72h deadline; repeating it on the resulting store is rejected and leaves
that store untouched. -/
theorem start_trial_once_witness :
    (trial_self_claim initialStore "u" 1000 10).2.1 = TrialOutcome.granted "1" ∧
    (trial_self_claim initialStore "u" 1000 10).2.2 = some ("1", 260200) ∧
    trial_self_claim (trial_self_claim initialStore "u" 1000 10).1 "u" 2000 10
      = ((trial_self_claim initialStore "u" 1000 10).1,
          TrialOutcome.alreadyClaimed, none) := by
  have h1 := (start_trial_once initialStore "u" 1000 10).2 (by decide)
  have h2 := (start_trial_once (trial_self_claim initialStore "u" 1000 10).1
    "u" 2000 10).1 (by decide)
  exact ⟨by rw [h1.1]; decide, by rw [h1.2.1]; decide, h2⟩

/-! ## Claim C9 — the trial invariant -/

/-- `trial_claimed` as read with zero-value defaults. -/
def claimedD (s : Store) (u : String) : Bool := (s.userD u).trial_claimed

/-- `trial_active` as read with zero-value defaults. -/
def activeD (s : Store) (u : String) : Bool := (s.userD u).trial_active

/-- The trial invariant of the data model, strengthened just enough to be
inductive: a trial-status record carries a deadline and its owner's
`trial_active` flag; any record carrying a deadline has an owner with
`trial_claimed` set; and no two records carrying deadlines share an owner
(only the claim flows ever write `trial_expires`, and `trial_claimed`
limits each account to one). -/
def TrialInv (s : Store) : Prop :=
  (∀ e ∈ s.vps, e.2.status = "trial" →
    e.2.trial_expires ≠ none ∧ activeD s e.2.owner = true) ∧
  (∀ e ∈ s.vps, e.2.trial_expires ≠ none → claimedD s e.2.owner = true) ∧
  s.vps.Pairwise (fun e1 e2 =>
    e1.2.trial_expires ≠ none → e2.2.trial_expires ≠ none →
      e1.2.owner ≠ e2.2.owner)

theorem alistGet_mem {α : Type} (l : List (String × α)) (k : String) (v : α)
    (h : alistGet l k = some v) : (k, v) ∈ l := by
  induction l with
  | nil => cases h
  | cons e t ih =>
    obtain ⟨k0, w⟩ := e
    by_cases hk : k0 = k
    · subst hk
      rw [alistGet, if_pos rfl] at h
      injection h with h
      subst h
      exact List.mem_cons_self _ _
    · rw [alistGet, if_neg hk] at h
      exact List.mem_cons_of_mem _ (ih h)

theorem alistErase_sublist {α : Type} (l : List (String × α)) (k : String) :
    (alistErase l k).Sublist l := by
  induction l with
  | nil => exact List.Sublist.refl _
  | cons e t ih =>
    obtain ⟨k0, v⟩ := e
    by_cases hk : k0 = k
    · rw [alistErase, if_pos hk]
      exact ih.cons _
    · rw [alistErase, if_neg hk]
      exact ih.cons₂ _

theorem alistUpd_eq_map {α : Type} (l : List (String × α)) (k : String)
    (f : α → α) :
    alistUpd l k f = l.map (fun e => if e.1 = k then (e.1, f e.2) else e) := by
  induction l with
  | nil => rfl
  | cons e t ih =>
    obtain ⟨k0, v⟩ := e
    by_cases hk : k0 = k <;> simp [alistUpd, hk, ih]

theorem alistUpd_append {α : Type} (l1 l2 : List (String × α)) (k : String)
    (f : α → α) :
    alistUpd (l1 ++ l2) k f = alistUpd l1 k f ++ alistUpd l2 k f := by
  induction l1 with
  | nil => rfl
  | cons e t ih =>
    obtain ⟨k0, v⟩ := e
    by_cases hk : k0 = k <;> simp [alistUpd, hk, ih]

theorem getD_append_default (l : List (String × UserRec)) (k u : String) :
    (alistGet (l ++ [(k, defaultUser)]) u).getD defaultUser
      = (alistGet l u).getD defaultUser := by
  rw [alistGet_append]
  cases hv : alistGet l u with
  | none =>
    by_cases hk : k = u
    · subst hk
      simp [alistGet]
    · simp [alistGet, hk]
  | some v => simp

theorem flags_getD_upd (l : List (String × UserRec)) (k u : String)
    (f : UserRec → UserRec)
    (hc : ∀ w, (f w).trial_claimed = w.trial_claimed)
    (ha : ∀ w, (f w).trial_active = w.trial_active) :
    ((alistGet (alistUpd l k f) u).getD defaultUser).trial_claimed
      = ((alistGet l u).getD defaultUser).trial_claimed ∧
    ((alistGet (alistUpd l k f) u).getD defaultUser).trial_active
      = ((alistGet l u).getD defaultUser).trial_active := by
  by_cases hk : k = u
  · subst hk
    rw [alistGet_upd_self]
    cases hv : alistGet l k with
    | none => exact ⟨rfl, rfl⟩
    | some v => exact ⟨hc v, ha v⟩
  · rw [alistGet_upd_ne _ _ _ _ hk]
    exact ⟨rfl, rfl⟩

theorem userD_users_eq (s s' : Store) (h : s'.users = s.users) (u : String) :
    s'.userD u = s.userD u := by
  unfold Store.userD
  rw [h]

theorem claimedD_users_eq (s s' : Store) (h : s'.users = s.users) (u : String) :
    claimedD s' u = claimedD s u := by
  unfold claimedD
  rw [userD_users_eq s s' h]

theorem activeD_users_eq (s s' : Store) (h : s'.users = s.users) (u : String) :
    activeD s' u = activeD s u := by
  unfold activeD
  rw [userD_users_eq s s' h]

/-- Preservation by operations that leave the resource map and both trial
flags of every account unchanged. -/
theorem trialInv_congr (s s' : Store) (hv : s'.vps = s.vps)
    (hc : ∀ u, claimedD s' u = claimedD s u)
    (ha : ∀ u, activeD s' u = activeD s u) :
    TrialInv s → TrialInv s' := by
  intro hi
  refine ⟨?_, ?_, ?_⟩
  · intro e he hst
    rw [hv] at he
    obtain ⟨h1, h2⟩ := hi.1 e he hst
    exact ⟨h1, (ha e.2.owner).trans h2⟩
  · intro e he hexp
    rw [hv] at he
    exact (hc e.2.owner).trans (hi.2.1 e he hexp)
  · rw [hv]
    exact hi.2.2

/-- Preservation by operations that transform the resource map entrywise
(possibly dropping entries), never creating the trial status and never
touching owners, deadlines or the user accounts. -/
theorem trialInv_transform (s s' : Store)
    (g : (String × VpsRec) → (String × VpsRec))
    (husers : s'.users = s.users)
    (hsub : s'.vps.Sublist (s.vps.map g))
    (howner : ∀ e, (g e).2.owner = e.2.owner)
    (hstat : ∀ e, (g e).2.status = "trial" → e.2.status = "trial")
    (hexp : ∀ e, (g e).2.trial_expires = e.2.trial_expires) :
    TrialInv s → TrialInv s' := by
  intro hi
  have hmem : ∀ e ∈ s'.vps, ∃ e0 ∈ s.vps, g e0 = e := by
    intro e he
    have := hsub.subset he
    simpa [List.mem_map] using this
  refine ⟨?_, ?_, ?_⟩
  · intro e he hst
    obtain ⟨e0, he0, rfl⟩ := hmem e he
    obtain ⟨h1, h2⟩ := hi.1 e0 he0 (hstat e0 hst)
    rw [hexp, howner, activeD_users_eq s s' husers]
    exact ⟨h1, h2⟩
  · intro e he hexpe
    obtain ⟨e0, he0, rfl⟩ := hmem e he
    rw [hexp] at hexpe
    rw [howner, claimedD_users_eq s s' husers]
    exact hi.2.1 e0 he0 hexpe
  · refine List.Pairwise.sublist hsub ?_
    refine List.Pairwise.map g ?_ hi.2.2
    intro a b hab h1 h2
    rw [hexp] at h1 h2
    rw [howner, howner]
    exact hab h1 h2

/-- Preservation by appending a fresh record without a trial deadline. -/
theorem trialInv_insert (s s' : Store) (vid : String) (rec : VpsRec)
    (husers : s'.users = s.users)
    (hvps : s'.vps = s.vps ++ [(vid, rec)])
    (hstat : rec.status ≠ "trial") (hexp : rec.trial_expires = none) :
    TrialInv s → TrialInv s' := by
  intro hi
  refine ⟨?_, ?_, ?_⟩
  · intro e he hst
    rw [hvps] at he
    rcases List.mem_append.mp he with hm | hm
    · obtain ⟨h1, h2⟩ := hi.1 e hm hst
      rw [activeD_users_eq s s' husers]
      exact ⟨h1, h2⟩
    · rcases List.mem_singleton.mp hm with rfl
      exact absurd hst hstat
  · intro e he hexpe
    rw [hvps] at he
    rcases List.mem_append.mp he with hm | hm
    · rw [claimedD_users_eq s s' husers]
      exact hi.2.1 e hm hexpe
    · rcases List.mem_singleton.mp hm with rfl
      exact absurd hexp (by simpa using hexpe)
  · rw [hvps]
    rw [List.pairwise_append]
    refine ⟨hi.2.2, List.pairwise_singleton _ _, ?_⟩
    intro a _ b hb h1 h2
    rcases List.mem_singleton.mp hb with rfl
    exact absurd hexp (by simpa using h2)

theorem mem_alistErase {α : Type} (l : List (String × α)) (k : String)
    (e : String × α) (h : e ∈ alistErase l k) : e ∈ l ∧ e.1 ≠ k := by
  induction l with
  | nil => cases h
  | cons a t ih =>
    obtain ⟨k0, v⟩ := a
    by_cases hk : k0 = k
    · rw [alistErase, if_pos hk] at h
      obtain ⟨hm, hne⟩ := ih h
      exact ⟨List.mem_cons_of_mem _ hm, hne⟩
    · rw [alistErase, if_neg hk] at h
      rcases List.mem_cons.mp h with rfl | hm
      · exact ⟨List.mem_cons_self _ _, hk⟩
      · obtain ⟨hm2, hne⟩ := ih hm
        exact ⟨List.mem_cons_of_mem _ hm2, hne⟩

theorem trialInv_ensure (s : Store) (uid : String) :
    TrialInv s → TrialInv (ensure_user_record s uid) := by
  intro hi
  refine trialInv_congr s _ (ensure_user_record_vps s uid) ?_ ?_ hi
  · intro u
    unfold claimedD
    rw [userD_ensure]
  · intro u
    unfold activeD
    rw [userD_ensure]

/-- Preservation by a flag-preserving in-place account update. -/
theorem trialInv_users_upd (s s' : Store) (k : String) (f : UserRec → UserRec)
    (hvps : s'.vps = s.vps) (husers : s'.users = alistUpd s.users k f)
    (hc : ∀ w, (f w).trial_claimed = w.trial_claimed)
    (ha : ∀ w, (f w).trial_active = w.trial_active) :
    TrialInv s → TrialInv s' := by
  refine trialInv_congr s s' hvps ?_ ?_
  · intro u
    show ((alistGet s'.users u).getD defaultUser).trial_claimed = _
    rw [husers]
    exact (flags_getD_upd s.users k u f hc ha).1
  · intro u
    show ((alistGet s'.users u).getD defaultUser).trial_active = _
    rw [husers]
    exact (flags_getD_upd s.users k u f hc ha).2

theorem trialInv_admin_add (s : Store) (uid : String) (amount : Int) :
    TrialInv s → TrialInv (admin_add_credits s uid amount) := by
  intro hi
  exact trialInv_users_upd (ensure_user_record s uid) _ uid _ rfl rfl
    (fun w => rfl) (fun w => rfl) (trialInv_ensure s uid hi)

theorem trialInv_admin_remove (s : Store) (uid : String) (amount : RemoveAmount) :
    TrialInv s → TrialInv (admin_remove_credits s uid amount) := by
  intro hi
  cases amount with
  | all =>
    exact trialInv_users_upd (ensure_user_record s uid) _ uid _ rfl rfl
      (fun w => rfl) (fun w => rfl) (trialInv_ensure s uid hi)
  | num a =>
    exact trialInv_users_upd (ensure_user_record s uid) _ uid _ rfl rfl
      (fun w => rfl) (fun w => rfl) (trialInv_ensure s uid hi)

theorem trialInv_transfer (s : Store) (uid tid : String) (amount : Int) :
    TrialInv s → TrialInv (transfer s uid tid amount).1 := by
  intro hi
  unfold transfer
  by_cases hpos : amount ≤ 0
  · rw [if_pos hpos]
    exact hi
  · rw [if_neg hpos]
    have hi2 : TrialInv (ensure_user_record (ensure_user_record s uid) tid) :=
      trialInv_ensure _ _ (trialInv_ensure _ _ hi)
    by_cases hins :
        ((ensure_user_record (ensure_user_record s uid) tid).userD uid).credits < amount
    · rw [if_pos hins]
      exact hi2
    · rw [if_neg hins]
      refine trialInv_users_upd
        { (ensure_user_record (ensure_user_record s uid) tid) with
          users := alistUpd (ensure_user_record (ensure_user_record s uid) tid).users
            uid (fun u => { u with credits := u.credits - amount }) } _
        tid _ rfl rfl (fun w => rfl) (fun w => rfl) ?_
      exact trialInv_users_upd (ensure_user_record (ensure_user_record s uid) tid) _
        uid _ rfl rfl (fun w => rfl) (fun w => rfl) hi2

theorem trialInv_create (s : Store) (owner : String) (ram cpu storage now : Int) :
    TrialInv s → TrialInv (create_vps_record s owner ram cpu storage now).1 := by
  intro hi
  refine trialInv_insert s _ (get_next_vps_id s)
    { id := get_next_vps_id s, owner := owner, ram := ram, cpu := cpu,
      storage := storage, status := "active", shared_with := [],
      created_at := now, trial_expires := none } rfl ?_
    (by show ("active" : String) ≠ "trial"; decide) rfl hi
  show alistSet s.vps (get_next_vps_id s) _ = _
  unfold alistSet
  rw [get_next_fresh s]
  rfl

theorem trialInv_buy (s : Store) (uid : String) (cost ram cpu storage now : Int) :
    TrialInv s → TrialInv (buy_plan s uid cost ram cpu storage now).1 := by
  intro hi
  unfold buy_plan
  by_cases hins : ((ensure_user_record s uid).userD uid).credits < cost
  · rw [if_pos hins]
    exact trialInv_ensure s uid hi
  · rw [if_neg hins]
    refine trialInv_congr (create_vps_record
      { (ensure_user_record s uid) with
        users := alistUpd (ensure_user_record s uid).users uid
          (fun u => { u with credits := u.credits - cost }) }
      uid ram cpu storage now).1 _ rfl (fun u => rfl) (fun u => rfl) ?_
    refine trialInv_create _ uid ram cpu storage now ?_
    exact trialInv_users_upd (ensure_user_record s uid) _ uid _ rfl rfl
      (fun w => rfl) (fun w => rfl) (trialInv_ensure s uid hi)

theorem trialInv_daily (s : Store) (uid : String) (now : Int) :
    TrialInv s → TrialInv (daily s uid now) := by
  intro hi
  simp only [daily]
  split
  · exact trialInv_ensure s uid hi
  · exact trialInv_users_upd (ensure_user_record s uid) _ uid _ rfl rfl
      (fun w => rfl) (fun w => rfl) (trialInv_ensure s uid hi)

theorem trialInv_weekly (s : Store) (uid : String) (now : Int) :
    TrialInv s → TrialInv (weekly s uid now) := by
  intro hi
  simp only [weekly]
  split
  · exact trialInv_ensure s uid hi
  · exact trialInv_users_upd (ensure_user_record s uid) _ uid _ rfl rfl
      (fun w => rfl) (fun w => rfl) (trialInv_ensure s uid hi)

theorem trialInv_finalize_giveaway (s : Store) (gid : String)
    (fetch : MsgFetch) (pick : Nat) :
    TrialInv s → TrialInv (finalize_giveaway_by_id s gid fetch pick) := by
  intro hi
  cases hg : alistGet s.giveaways gid with
  | none =>
    simp only [finalize_giveaway_by_id, hg]
    exact hi
  | some gw =>
    cases fetch with
    | unreachable =>
      simp only [finalize_giveaway_by_id, hg]
      exact trialInv_congr s _ rfl (fun u => rfl) (fun u => rfl) hi
    | reached ps =>
      simp only [finalize_giveaway_by_id, hg]
      by_cases hps : 0 < ps.length
      · rw [dif_pos hps]
        refine trialInv_congr
          { (ensure_user_record s (ps.get ⟨pick % ps.length, Nat.mod_lt _ hps⟩)) with
            users := alistUpd (ensure_user_record s
              (ps.get ⟨pick % ps.length, Nat.mod_lt _ hps⟩)).users
              (ps.get ⟨pick % ps.length, Nat.mod_lt _ hps⟩)
              (fun u => { u with credits := u.credits + gw.amount }),
            saveUsers := (ensure_user_record s
              (ps.get ⟨pick % ps.length, Nat.mod_lt _ hps⟩)).saveUsers + 1 } _
          rfl (fun u => rfl) (fun u => rfl) ?_
        exact trialInv_users_upd (ensure_user_record s _) _ _ _ rfl rfl
          (fun w => rfl) (fun w => rfl) (trialInv_ensure s _ hi)
      · rw [dif_neg hps]
        exact trialInv_congr s _ rfl (fun u => rfl) (fun u => rfl) hi

theorem trialInv_giveaway_credits (s : Store) (chId : Nat) (amount secs : Int)
    (msgId : Nat) (hostId : String) (now : Int) :
    TrialInv s → TrialInv (giveaway_credits s chId amount secs msgId hostId now).1 := by
  intro hi
  unfold giveaway_credits
  split
  · exact hi
  · exact trialInv_congr s _ rfl (fun u => rfl) (fun u => rfl) hi

theorem trialInv_grant_protection (s : Store) (msgId : Nat) (userId emo : String)
    (now : Int) (isBot : Bool) :
    TrialInv s → TrialInv (grant_protection s msgId userId emo now isBot) := by
  intro hi
  cases h1 : s.purge.message_id with
  | none =>
    simp only [grant_protection, h1]
    exact hi
  | some mid =>
    cases h2 : s.purge.channel_id with
    | none =>
      simp only [grant_protection, h1, h2]
      exact hi
    | some ch =>
      simp only [grant_protection, h1, h2]
      split
      · exact hi
      · split
        · exact hi
        · exact trialInv_congr s _ rfl (fun u => rfl) (fun u => rfl) hi

theorem trialInv_dont_purge_user (s : Store) (uid : String) :
    TrialInv s → TrialInv (dont_purge_user s uid) :=
  trialInv_congr s _ rfl (fun _ => rfl) (fun _ => rfl)

theorem trialInv_dont_purge_vps (s : Store) (vid : String) :
    TrialInv s → TrialInv (dont_purge_vps s vid) :=
  trialInv_congr s _ rfl (fun _ => rfl) (fun _ => rfl)

theorem trialInv_remove_protection_user (s : Store) (uid : String) :
    TrialInv s → TrialInv (remove_protection_user s uid) := by
  intro hi
  unfold remove_protection_user
  split
  · exact trialInv_congr s _ rfl (fun u => rfl) (fun u => rfl) hi
  · exact hi

theorem trialInv_remove_protection_vps (s : Store) (vid : String) :
    TrialInv s → TrialInv (remove_protection_vps s vid) := by
  intro hi
  unfold remove_protection_vps
  split
  · exact trialInv_congr s _ rfl (fun u => rfl) (fun u => rfl) hi
  · exact hi

theorem trialInv_exec_purge (s : Store) (now : Int) :
    TrialInv s → TrialInv (execute_scheduled_purge s now).1 := by
  intro hi
  refine trialInv_transform s _ id rfl ?_ (fun e => rfl) (fun e h => h)
    (fun e => rfl) hi
  show (s.vps.filter (scheduledKeep s now)).Sublist (s.vps.map id)
  rw [List.map_id]
  exact List.filter_sublist _

theorem trialInv_purge_start (s : Store) (now : Int) (msgId chId : Nat) :
    TrialInv s → TrialInv (purge_start s now msgId chId).1 := by
  intro hi
  refine trialInv_transform s _ id rfl ?_ (fun e => rfl) (fun e h => h)
    (fun e => rfl) hi
  show (List.filter _ s.vps).Sublist (s.vps.map id)
  rw [List.map_id]
  exact List.filter_sublist _

theorem trialInv_delete (s : Store) (vid : String) :
    TrialInv s → TrialInv (delete_vps s vid) := by
  intro hi
  refine trialInv_transform s _ id rfl ?_ (fun e => rfl) (fun e h => h)
    (fun e => rfl) hi
  show (alistErase s.vps vid).Sublist (s.vps.map id)
  rw [List.map_id]
  exact alistErase_sublist _ _

theorem trialInv_set_status (s : Store) (vid st : String) (hst : st ≠ "trial") :
    TrialInv s → TrialInv (set_vps_status s vid st) := by
  intro hi
  unfold set_vps_status
  split
  · refine trialInv_transform s _
      (fun e => if e.1 = vid then (e.1, { e.2 with status := st }) else e)
      rfl ?_ ?_ ?_ ?_ hi
    · show (alistUpd s.vps vid _).Sublist _
      rw [alistUpd_eq_map]
    · intro e
      by_cases h : e.1 = vid <;> simp [h]
    · intro e h
      by_cases hk : e.1 = vid
      · simp [hk] at h
        exact absurd h hst
      · simpa [hk] using h
    · intro e
      by_cases h : e.1 = vid <;> simp [h]
  · exact hi

theorem trialInv_stop_all (s : Store) :
    TrialInv s → TrialInv (stop_all s) := by
  intro hi
  unfold stop_all
  split
  · exact trialInv_congr s _ rfl (fun u => rfl) (fun u => rfl) hi
  · refine trialInv_transform s _
      (fun e => (e.1, { e.2 with status := "stopped" })) rfl
      (List.Sublist.refl _) (fun e => rfl) ?_ (fun e => rfl) hi
    intro e h
    exact absurd h (show ("stopped" : String) ≠ "trial" by decide)

theorem trialInv_maintenance (s : Store) (mode : Bool) :
    TrialInv s → TrialInv (maintenance_toggle s mode) := by
  intro hi
  unfold maintenance_toggle
  split
  · refine trialInv_transform s _
      (fun e => (e.1, { e.2 with status := "stopped" })) rfl
      (List.Sublist.refl _) (fun e => rfl) ?_ (fun e => rfl) hi
    intro e h
    exact absurd h (show ("stopped" : String) ≠ "trial" by decide)
  · exact trialInv_congr s _ rfl (fun u => rfl) (fun u => rfl) hi

theorem trialInv_share (s : Store) (uid vid : String) :
    TrialInv s → TrialInv (share_user s uid vid) := by
  intro hi
  cases hv : alistGet s.vps vid with
  | none =>
    simp only [share_user, hv]
    exact hi
  | some v =>
    simp only [share_user, hv]
    split
    · exact hi
    · refine trialInv_transform s _
        (fun e => if e.1 = vid then (e.1, { e.2 with shared_with := e.2.shared_with ++ [uid] }) else e)
        rfl ?_ ?_ ?_ ?_ hi
      · show (alistUpd s.vps vid _).Sublist _
        rw [alistUpd_eq_map]
      · intro e
        by_cases h : e.1 = vid <;> simp [h]
      · intro e h
        by_cases hk : e.1 = vid
        · simpa [hk] using h
        · simpa [hk] using h
      · intro e
        by_cases h : e.1 = vid <;> simp [h]

theorem trialInv_revoke_share (s : Store) (uid vid : String) :
    TrialInv s → TrialInv (revoke_shared_user s uid vid) := by
  intro hi
  cases hv : alistGet s.vps vid with
  | none =>
    simp only [revoke_shared_user, hv]
    exact hi
  | some v =>
    simp only [revoke_shared_user, hv]
    split
    · refine trialInv_transform s _
        (fun e => if e.1 = vid then (e.1, { e.2 with shared_with := e.2.shared_with.erase uid }) else e)
        rfl ?_ ?_ ?_ ?_ hi
      · show (alistUpd s.vps vid _).Sublist _
        rw [alistUpd_eq_map]
      · intro e
        by_cases h : e.1 = vid <;> simp [h]
      · intro e h
        by_cases hk : e.1 = vid
        · simpa [hk] using h
        · simpa [hk] using h
      · intro e
        by_cases h : e.1 = vid <;> simp [h]
    · exact hi

/-- Preservation by a trial claim: a fresh trial record is appended for an
account whose `trial_claimed` flag was previously false and whose flags are
both raised by the same step. -/
theorem trialInv_claim (s s' : Store) (uid vid : String) (recT : VpsRec)
    (hro : recT.owner = uid) (hre : recT.trial_expires ≠ none)
    (hvps : s'.vps = s.vps ++ [(vid, recT)])
    (hcu : claimedD s' uid = true) (hau : activeD s' uid = true)
    (hc : ∀ u, u ≠ uid → claimedD s' u = claimedD s u)
    (ha : ∀ u, u ≠ uid → activeD s' u = activeD s u)
    (hun : claimedD s uid = false) :
    TrialInv s → TrialInv s' := by
  intro hi
  refine ⟨?_, ?_, ?_⟩
  · intro e he hst
    rw [hvps] at he
    rcases List.mem_append.mp he with hm | hm
    · obtain ⟨h1, h2⟩ := hi.1 e hm hst
      refine ⟨h1, ?_⟩
      by_cases ho : e.2.owner = uid
      · rw [ho]
        exact hau
      · rw [ha _ ho]
        exact h2
    · rcases List.mem_singleton.mp hm with rfl
      refine ⟨hre, ?_⟩
      show activeD s' recT.owner = true
      rw [hro]
      exact hau
  · intro e he hexp
    rw [hvps] at he
    rcases List.mem_append.mp he with hm | hm
    · by_cases ho : e.2.owner = uid
      · have hcl := hi.2.1 e hm hexp
        rw [ho] at hcl
        rw [hcl] at hun
        exact absurd hun (by decide)
      · rw [hc _ ho]
        exact hi.2.1 e hm hexp
    · rcases List.mem_singleton.mp hm with rfl
      show claimedD s' recT.owner = true
      rw [hro]
      exact hcu
  · rw [hvps, List.pairwise_append]
    refine ⟨hi.2.2, List.pairwise_singleton _ _, ?_⟩
    intro a hma b hmb
    rcases List.mem_singleton.mp hmb with rfl
    intro h1 _
    show a.2.owner ≠ recT.owner
    rw [hro]
    intro hcontra
    have hcl := hi.2.1 a hma h1
    rw [hcontra] at hcl
    rw [hcl] at hun
    exact absurd hun (by decide)

theorem trialInv_trial_self (s : Store) (uid : String) (now tc : Int) :
    TrialInv s → TrialInv (trial_self_claim s uid now tc).1 := by
  intro hi
  by_cases hcl : ((ensure_user_record s uid).userD uid).trial_claimed = true
  · have hrun : trial_self_claim s uid now tc
        = (ensure_user_record s uid, TrialOutcome.alreadyClaimed, none) := by
      unfold trial_self_claim
      rw [if_pos hcl]
    rw [hrun]
    exact trialInv_ensure s uid hi
  · have hcond : ((ensure_user_record s uid).userD uid).trial_claimed = false := by
      simp only [Bool.not_eq_true] at hcl
      exact hcl
    have hun : claimedD s uid = false := by
      unfold claimedD
      rw [← userD_ensure s uid uid]
      exact hcond
    have hens2 : ensure_user_record (ensure_user_record s uid) uid
        = ensure_user_record s uid :=
      ensure_user_record_of_isSome _ _ (by rw [alistGet_ensure_self]; rfl)
    set s1 := ensure_user_record s uid with hs1
    set s3 : Store := { s1 with
      users := alistUpd s1.users uid
        (fun u => { u with trial_claimed := true, trial_active := true }) } with hs3
    have hrun : trial_self_claim s uid now tc =
        (let res := create_vps_record s3 uid 2 1 20 now
         let s4 := res.1
         let vid := res.2
         let endTs := now + 3 * 24 * 3600
         let s5 := { s4 with
           vps := alistUpd s4.vps vid
             (fun v => { v with trial_expires := some endTs, status := "trial" }) }
         let s6 := { s5 with
           users :=
             if tc ≠ 0 then
               alistUpd s5.users uid (fun u => { u with credits := u.credits + tc })
             else s5.users }
         ({ s6 with saveVps := s6.saveVps + 1, saveUsers := s6.saveUsers + 1 },
           TrialOutcome.granted vid, some (vid, endTs))) := by
      unfold trial_self_claim
      rw [if_neg (by rw [hcond]; exact Bool.false_ne_true), hens2]
    have hvps3 : s3.vps = s.vps := by
      rw [hs3]
      show s1.vps = s.vps
      rw [hs1]
      exact ensure_user_record_vps s uid
    have hnext3 : get_next_vps_id s3 = get_next_vps_id s := by
      unfold get_next_vps_id
      rw [hvps3]
    have hvpsF : (trial_self_claim s uid now tc).1.vps =
        alistUpd (alistSet s3.vps (get_next_vps_id s3)
          { id := get_next_vps_id s3, owner := uid, ram := 2, cpu := 1, storage := 20,
            status := "active", shared_with := [], created_at := now,
            trial_expires := none }) (get_next_vps_id s3)
          (fun v =>
            { v with
              trial_expires := some (now + 3 * 24 * 3600),
              status := "trial" }) := by
      rw [hrun]
      rfl
    have husersF : (trial_self_claim s uid now tc).1.users =
        (if tc ≠ 0 then
          alistUpd s3.users uid (fun u => { u with credits := u.credits + tc })
        else s3.users) := by
      rw [hrun]
      rfl
    have hfresh3 : alistGet s3.vps (get_next_vps_id s3) = none := get_next_fresh s3
    have hset : alistSet s3.vps (get_next_vps_id s3)
        { id := get_next_vps_id s3, owner := uid, ram := 2, cpu := 1, storage := 20,
          status := "active", shared_with := [], created_at := now,
          trial_expires := none }
        = s3.vps ++ [(get_next_vps_id s3,
          { id := get_next_vps_id s3, owner := uid, ram := 2, cpu := 1, storage := 20,
            status := "active", shared_with := [], created_at := now,
            trial_expires := none })] := by
      unfold alistSet
      rw [hfresh3]
      rfl
    have hvpsF2 : (trial_self_claim s uid now tc).1.vps =
        s.vps ++ [(get_next_vps_id s,
          { id := get_next_vps_id s, owner := uid, ram := 2, cpu := 1, storage := 20,
            status := "trial", shared_with := [], created_at := now,
            trial_expires := some (now + 3 * 24 * 3600) })] := by
      rw [hvpsF, hset, alistUpd_append, alistUpd_of_get_none _ _ _ hfresh3, hvps3,
        hnext3]
      simp [alistUpd]
    have hget3 : alistGet s3.users uid =
        some { (s.userD uid) with trial_claimed := true, trial_active := true } := by
      rw [hs3]
      show alistGet (alistUpd s1.users uid _) uid = _
      rw [alistGet_upd_self, hs1, alistGet_ensure_self]
      rfl
    have hgetF : ∀ g : UserRec → UserRec,
        alistGet (alistUpd s3.users uid g) uid =
          some (g { (s.userD uid) with trial_claimed := true, trial_active := true }) := by
      intro g
      rw [alistGet_upd_self, hget3]
      rfl
    have hcuF : claimedD (trial_self_claim s uid now tc).1 uid = true := by
      unfold claimedD Store.userD
      rw [husersF]
      by_cases htc : tc ≠ 0
      · rw [if_pos htc, hgetF]
        rfl
      · rw [if_neg htc, hget3]
        rfl
    have hauF : activeD (trial_self_claim s uid now tc).1 uid = true := by
      unfold activeD Store.userD
      rw [husersF]
      by_cases htc : tc ≠ 0
      · rw [if_pos htc, hgetF]
        rfl
      · rw [if_neg htc, hget3]
        rfl
    have huserD_ne : ∀ u, u ≠ uid →
        (trial_self_claim s uid now tc).1.userD u = s.userD u := by
      intro u hne
      have huidne : uid ≠ u := Ne.symm hne
      have h3u : alistGet s3.users u = alistGet s1.users u := by
        rw [hs3]
        show alistGet (alistUpd s1.users uid _) u = _
        exact alistGet_upd_ne _ _ _ _ huidne
      unfold Store.userD
      rw [husersF]
      by_cases htc : tc ≠ 0
      · rw [if_pos htc, alistGet_upd_ne _ _ _ _ huidne, h3u, hs1]
        exact userD_ensure s uid u
      · rw [if_neg htc, h3u, hs1]
        exact userD_ensure s uid u
    refine trialInv_claim s _ uid (get_next_vps_id s)
      { id := get_next_vps_id s, owner := uid, ram := 2, cpu := 1, storage := 20,
        status := "trial", shared_with := [], created_at := now,
        trial_expires := some (now + 3 * 24 * 3600) }
      rfl (by simp) hvpsF2 hcuF hauF ?_ ?_ hun hi
    · intro u hne
      unfold claimedD
      rw [huserD_ne u hne]
    · intro u hne
      unfold activeD
      rw [huserD_ne u hne]

theorem trialInv_trial_grant (s : Store) (uid : String) (now tc : Int) :
    TrialInv s → TrialInv (trial_grant s uid now tc).1 := by
  intro hi
  by_cases hcl : ((ensure_user_record s uid).userD uid).trial_claimed = true
  · have hrun : trial_grant s uid now tc
        = (ensure_user_record s uid, TrialOutcome.alreadyClaimed, none) := by
      unfold trial_grant
      rw [if_pos hcl]
    rw [hrun]
    exact trialInv_ensure s uid hi
  · have hcond : ((ensure_user_record s uid).userD uid).trial_claimed = false := by
      simp only [Bool.not_eq_true] at hcl
      exact hcl
    have hun : claimedD s uid = false := by
      unfold claimedD
      rw [← userD_ensure s uid uid]
      exact hcond
    set s1 := ensure_user_record s uid with hs1
    have hrun : trial_grant s uid now tc =
        (let res := create_vps_record s1 uid 2 1 20 now
         let s2 := res.1
         let vid := res.2
         let endTs := now + 3 * 24 * 3600
         let s3 := { s2 with
           vps := alistUpd s2.vps vid
             (fun v => { v with trial_expires := some endTs, status := "trial" }) }
         let s4 := { s3 with
           users := alistUpd s3.users uid
             (fun u => { u with trial_claimed := true, trial_active := true }) }
         let s5 := { s4 with
           users :=
             if tc ≠ 0 then
               alistUpd s4.users uid (fun u => { u with credits := u.credits + tc })
             else s4.users }
         ({ s5 with saveVps := s5.saveVps + 1, saveUsers := s5.saveUsers + 1 },
           TrialOutcome.granted vid, some (vid, endTs))) := by
      unfold trial_grant
      rw [if_neg (by rw [hcond]; exact Bool.false_ne_true)]
    have hvps1 : s1.vps = s.vps := by
      rw [hs1]
      exact ensure_user_record_vps s uid
    have hnext1 : get_next_vps_id s1 = get_next_vps_id s := by
      unfold get_next_vps_id
      rw [hvps1]
    have hvpsF : (trial_grant s uid now tc).1.vps =
        alistUpd (alistSet s1.vps (get_next_vps_id s1)
          { id := get_next_vps_id s1, owner := uid, ram := 2, cpu := 1, storage := 20,
            status := "active", shared_with := [], created_at := now,
            trial_expires := none }) (get_next_vps_id s1)
          (fun v =>
            { v with
              trial_expires := some (now + 3 * 24 * 3600),
              status := "trial" }) := by
      rw [hrun]
      rfl
    have husersF : (trial_grant s uid now tc).1.users =
        (if tc ≠ 0 then
          alistUpd (alistUpd s1.users uid
            (fun u => { u with trial_claimed := true, trial_active := true })) uid
            (fun u => { u with credits := u.credits + tc })
        else alistUpd s1.users uid
          (fun u => { u with trial_claimed := true, trial_active := true })) := by
      rw [hrun]
      rfl
    have hfresh1 : alistGet s1.vps (get_next_vps_id s1) = none := get_next_fresh s1
    have hset : alistSet s1.vps (get_next_vps_id s1)
        { id := get_next_vps_id s1, owner := uid, ram := 2, cpu := 1, storage := 20,
          status := "active", shared_with := [], created_at := now,
          trial_expires := none }
        = s1.vps ++ [(get_next_vps_id s1,
          { id := get_next_vps_id s1, owner := uid, ram := 2, cpu := 1, storage := 20,
            status := "active", shared_with := [], created_at := now,
            trial_expires := none })] := by
      unfold alistSet
      rw [hfresh1]
      rfl
    have hvpsF2 : (trial_grant s uid now tc).1.vps =
        s.vps ++ [(get_next_vps_id s,
          { id := get_next_vps_id s, owner := uid, ram := 2, cpu := 1, storage := 20,
            status := "trial", shared_with := [], created_at := now,
            trial_expires := some (now + 3 * 24 * 3600) })] := by
      rw [hvpsF, hset, alistUpd_append, alistUpd_of_get_none _ _ _ hfresh1, hvps1,
        hnext1]
      simp [alistUpd]
    have hget4 : alistGet (alistUpd s1.users uid
        (fun u => { u with trial_claimed := true, trial_active := true })) uid =
        some { (s.userD uid) with trial_claimed := true, trial_active := true } := by
      rw [alistGet_upd_self, hs1, alistGet_ensure_self]
      rfl
    have hcuF : claimedD (trial_grant s uid now tc).1 uid = true := by
      unfold claimedD Store.userD
      rw [husersF]
      by_cases htc : tc ≠ 0
      · rw [if_pos htc, alistGet_upd_self, hget4]
        rfl
      · rw [if_neg htc, hget4]
        rfl
    have hauF : activeD (trial_grant s uid now tc).1 uid = true := by
      unfold activeD Store.userD
      rw [husersF]
      by_cases htc : tc ≠ 0
      · rw [if_pos htc, alistGet_upd_self, hget4]
        rfl
      · rw [if_neg htc, hget4]
        rfl
    have huserD_ne : ∀ u, u ≠ uid →
        (trial_grant s uid now tc).1.userD u = s.userD u := by
      intro u hne
      have huidne : uid ≠ u := Ne.symm hne
      unfold Store.userD
      rw [husersF]
      by_cases htc : tc ≠ 0
      · rw [if_pos htc, alistGet_upd_ne _ _ _ _ huidne,
          alistGet_upd_ne _ _ _ _ huidne, hs1]
        exact userD_ensure s uid u
      · rw [if_neg htc, alistGet_upd_ne _ _ _ _ huidne, hs1]
        exact userD_ensure s uid u
    refine trialInv_claim s _ uid (get_next_vps_id s)
      { id := get_next_vps_id s, owner := uid, ram := 2, cpu := 1, storage := 20,
        status := "trial", shared_with := [], created_at := now,
        trial_expires := some (now + 3 * 24 * 3600) }
      rfl (by simp) hvpsF2 hcuF hauF ?_ ?_ hun hi
    · intro u hne
      unfold claimedD
      rw [huserD_ne u hne]
    · intro u hne
      unfold activeD
      rw [huserD_ne u hne]

/-- Preservation by trial-expiry resolution, provided the target record —
when it exists — actually carries a trial deadline (the timer was armed for
this record). -/
theorem trialInv_finalize_trial (s : Store) (vid : String)
    (hguard : ∀ v, alistGet s.vps vid = some v → v.trial_expires ≠ none) :
    TrialInv s → TrialInv (finalize_trial_vps s vid) := by
  intro hi
  cases hv : alistGet s.vps vid with
  | none =>
    have heq : finalize_trial_vps s vid = s := by
      simp only [finalize_trial_vps, hv]
    rw [heq]
    exact hi
  | some v =>
    have hvexp : v.trial_expires ≠ none := hguard v hv
    have hvmem : (vid, v) ∈ s.vps := alistGet_mem _ _ _ hv
    have hsym : Symmetric (fun e1 e2 : String × VpsRec =>
        e1.2.trial_expires ≠ none → e2.2.trial_expires ≠ none →
          e1.2.owner ≠ e2.2.owner) :=
      fun a b h h1 h2 => Ne.symm (h h2 h1)
    by_cases ho : v.owner ≠ ""
    · have husersF : (finalize_trial_vps s vid).users =
          alistUpd (ensure_user_record
              { s with vps := alistErase s.vps vid, saveVps := s.saveVps + 1 }
              v.owner).users v.owner
            (fun u => { u with trial_active := false }) := by
        simp only [finalize_trial_vps, hv]
        rw [if_pos ho]
      have hvpsF : (finalize_trial_vps s vid).vps = alistErase s.vps vid := by
        simp only [finalize_trial_vps, hv]
        rw [if_pos ho]
        show (ensure_user_record _ _).vps = _
        rw [ensure_user_record_vps]
      have hclaim_all : ∀ u,
          claimedD (finalize_trial_vps s vid) u = claimedD s u := by
        intro u
        unfold claimedD Store.userD
        rw [husersF]
        by_cases hu : v.owner = u
        · subst hu
          rw [alistGet_upd_self, alistGet_ensure_self]
          rfl
        · rw [alistGet_upd_ne _ _ _ _ hu]
          exact congrArg UserRec.trial_claimed (userD_ensure _ v.owner u)
      have hactive_ne : ∀ u, u ≠ v.owner →
          activeD (finalize_trial_vps s vid) u = activeD s u := by
        intro u hne
        unfold activeD Store.userD
        rw [husersF, alistGet_upd_ne _ _ _ _ (Ne.symm hne)]
        exact congrArg UserRec.trial_active (userD_ensure _ v.owner u)
      refine ⟨?_, ?_, ?_⟩
      · intro e he hst
        rw [hvpsF] at he
        obtain ⟨hmem, hkne⟩ := mem_alistErase _ _ _ he
        obtain ⟨h1, h2⟩ := hi.1 e hmem hst
        refine ⟨h1, ?_⟩
        have hne2 : e ≠ (vid, v) := fun hc => hkne (by rw [hc])
        have hown : e.2.owner ≠ v.owner :=
          (hi.2.2.forall hsym) hmem hvmem hne2 h1 hvexp
        rw [hactive_ne _ hown]
        exact h2
      · intro e he hexp
        rw [hvpsF] at he
        obtain ⟨hmem, _⟩ := mem_alistErase _ _ _ he
        rw [hclaim_all]
        exact hi.2.1 e hmem hexp
      · rw [hvpsF]
        exact List.Pairwise.sublist (alistErase_sublist _ _) hi.2.2
    · have heq : finalize_trial_vps s vid =
          { s with vps := alistErase s.vps vid, saveVps := s.saveVps + 1 } := by
        simp only [finalize_trial_vps, hv]
        rw [if_neg ho]
      rw [heq]
      refine trialInv_transform s _ id rfl ?_ (fun e => rfl) (fun e h => h)
        (fun e => rfl) hi
      show (alistErase s.vps vid).Sublist (s.vps.map id)
      rw [List.map_id]
      exact alistErase_sublist _ _

/-! ## Claim C9 — the trial invariant over reachable states -/

/-- One store-level operation of the bot.  The third component lists the
trial-expiry timers the step arms (`schedule_trial_expiry`, bot.py:1031 and
1074): only the two claim flows arm one. -/
inductive Step0 : Store → Store → List (String × Int) → Prop
  | ensureUser (s : Store) (uid : String) : Step0 s (ensure_user_record s uid) []
  | adminAdd (s : Store) (uid : String) (amount : Int) :
      Step0 s (admin_add_credits s uid amount) []
  | adminRemove (s : Store) (uid : String) (amount : RemoveAmount) :
      Step0 s (admin_remove_credits s uid amount) []
  | transferStep (s : Store) (uid tid : String) (amount : Int) :
      Step0 s (transfer s uid tid amount).1 []
  | buy (s : Store) (uid : String) (cost ram cpu storage now : Int) :
      Step0 s (buy_plan s uid cost ram cpu storage now).1 []
  | dailyStep (s : Store) (uid : String) (now : Int) : Step0 s (daily s uid now) []
  | weeklyStep (s : Store) (uid : String) (now : Int) : Step0 s (weekly s uid now) []
  | trialSelf (s : Store) (uid : String) (now tc : Int) :
      Step0 s (trial_self_claim s uid now tc).1
        ((trial_self_claim s uid now tc).2.2.toList)
  | trialGrant (s : Store) (uid : String) (now tc : Int) :
      Step0 s (trial_grant s uid now tc).1
        ((trial_grant s uid now tc).2.2.toList)
  | giveawayCreate (s : Store) (chId : Nat) (amount secs : Int) (msgId : Nat)
      (hostId : String) (now : Int) :
      Step0 s (giveaway_credits s chId amount secs msgId hostId now).1 []
  | giveawayFinalize (s : Store) (gid : String) (fetch : MsgFetch) (pick : Nat) :
      Step0 s (finalize_giveaway_by_id s gid fetch pick) []
  | protGrant (s : Store) (msgId : Nat) (userId emo : String) (now : Int)
      (isBot : Bool) :
      Step0 s (grant_protection s msgId userId emo now isBot) []
  | dontPurgeUser (s : Store) (uid : String) : Step0 s (dont_purge_user s uid) []
  | dontPurgeVps (s : Store) (vid : String) : Step0 s (dont_purge_vps s vid) []
  | removeProtUser (s : Store) (uid : String) :
      Step0 s (remove_protection_user s uid) []
  | removeProtVps (s : Store) (vid : String) :
      Step0 s (remove_protection_vps s vid) []
  | purgeStart (s : Store) (now : Int) (msgId chId : Nat) :
      Step0 s (purge_start s now msgId chId).1 []
  | purgeExec (s : Store) (now : Int) : Step0 s (execute_scheduled_purge s now).1 []
  | deleteVps (s : Store) (vid : String) : Step0 s (delete_vps s vid) []
  | setStatus (s : Store) (vid st : String)
      (h : st = "active" ∨ st = "stopped" ∨ st = "suspended") :
      Step0 s (set_vps_status s vid st) []
  | stopAll (s : Store) : Step0 s (stop_all s) []
  | maint (s : Store) (mode : Bool) : Step0 s (maintenance_toggle s mode) []
  | share (s : Store) (uid vid : String) : Step0 s (share_user s uid vid) []
  | revokeShare (s : Store) (uid vid : String) :
      Step0 s (revoke_shared_user s uid vid) []

/-- Stores reachable from the empty store by bot operations, with
trial-expiry firings restricted to targets that still carry a deadline —
i.e. runs in which no stale timer fires on a reused resource id. -/
inductive Reachable : Store → Prop
  | init : Reachable initialStore
  | step (s s' : Store) (ts : List (String × Int)) :
      Reachable s → Step0 s s' ts → Reachable s'
  | fireTrial (s : Store) (vid : String) :
      Reachable s →
      (∀ v, alistGet s.vps vid = some v → v.trial_expires ≠ none) →
      Reachable (finalize_trial_vps s vid)

/-- Stores reachable together with the multiset of armed, not-yet-fired
trial timers, firing timers exactly as the code does: by resource id, with
no check that the id still denotes the record the timer was armed for. -/
inductive SysReachable : Store → List (String × Int) → Prop
  | init : SysReachable initialStore []
  | step (s s' : Store) (ts newts : List (String × Int)) :
      SysReachable s ts → Step0 s s' newts → SysReachable s' (ts ++ newts)
  | fire (s : Store) (ts : List (String × Int)) (vid : String) (endTs : Int) :
      SysReachable s ts → (vid, endTs) ∈ ts →
      SysReachable (finalize_trial_vps s vid) (ts.erase (vid, endTs))

theorem finalize_trial_of_none (s : Store) (vid : String)
    (h : alistGet s.vps vid = none) : finalize_trial_vps s vid = s := by
  simp only [finalize_trial_vps, h]

theorem finalize_trial_vps_erase (s : Store) (vid : String) (v : VpsRec)
    (h : alistGet s.vps vid = some v) :
    (finalize_trial_vps s vid).vps = alistErase s.vps vid := by
  simp only [finalize_trial_vps, h]
  by_cases ho : v.owner ≠ ""
  · rw [if_pos ho]
    show (ensure_user_record _ _).vps = _
    rw [ensure_user_record_vps]
  · rw [if_neg ho]

theorem finalize_trial_gone (s : Store) (vid : String) :
    alistGet (finalize_trial_vps s vid).vps vid = none := by
  cases hv : alistGet s.vps vid with
  | none =>
    rw [finalize_trial_of_none s vid hv]
    exact hv
  | some v =>
    rw [finalize_trial_vps_erase s vid v hv]
    exact alistGet_erase_self _ _

theorem finalize_trial_owner_inactive (s : Store) (vid : String) (v : VpsRec)
    (h : alistGet s.vps vid = some v) (ho : v.owner ≠ "") :
    activeD (finalize_trial_vps s vid) v.owner = false := by
  have husersF : (finalize_trial_vps s vid).users =
      alistUpd (ensure_user_record
          { s with vps := alistErase s.vps vid, saveVps := s.saveVps + 1 }
          v.owner).users v.owner
        (fun u => { u with trial_active := false }) := by
    simp only [finalize_trial_vps, h]
    rw [if_pos ho]
  unfold activeD Store.userD
  rw [husersF, alistGet_upd_self, alistGet_ensure_self]
  rfl

theorem trialInv_of_reachable (s : Store) (h : Reachable s) : TrialInv s := by
  induction h with
  | init =>
    refine ⟨?_, ?_, ?_⟩
    · intro e he
      simp [initialStore] at he
    · intro e he
      simp [initialStore] at he
    · exact List.Pairwise.nil
  | step s1 s2 ts hr hstep ih =>
    cases hstep with
    | ensureUser uid => exact trialInv_ensure s1 uid ih
    | adminAdd uid amount => exact trialInv_admin_add s1 uid amount ih
    | adminRemove uid amount => exact trialInv_admin_remove s1 uid amount ih
    | transferStep uid tid amount => exact trialInv_transfer s1 uid tid amount ih
    | buy uid cost ram cpu storage now =>
      exact trialInv_buy s1 uid cost ram cpu storage now ih
    | dailyStep uid now => exact trialInv_daily s1 uid now ih
    | weeklyStep uid now => exact trialInv_weekly s1 uid now ih
    | trialSelf uid now tc => exact trialInv_trial_self s1 uid now tc ih
    | trialGrant uid now tc => exact trialInv_trial_grant s1 uid now tc ih
    | giveawayCreate chId amount secs msgId hostId now =>
      exact trialInv_giveaway_credits s1 chId amount secs msgId hostId now ih
    | giveawayFinalize gid fetch pick =>
      exact trialInv_finalize_giveaway s1 gid fetch pick ih
    | protGrant msgId userId emo now isBot =>
      exact trialInv_grant_protection s1 msgId userId emo now isBot ih
    | dontPurgeUser uid => exact trialInv_dont_purge_user s1 uid ih
    | dontPurgeVps vid => exact trialInv_dont_purge_vps s1 vid ih
    | removeProtUser uid => exact trialInv_remove_protection_user s1 uid ih
    | removeProtVps vid => exact trialInv_remove_protection_vps s1 vid ih
    | purgeStart now msgId chId => exact trialInv_purge_start s1 now msgId chId ih
    | purgeExec now => exact trialInv_exec_purge s1 now ih
    | deleteVps vid => exact trialInv_delete s1 vid ih
    | setStatus vid st hst =>
      rcases hst with rfl | rfl | rfl <;>
        exact trialInv_set_status s1 vid _ (by decide) ih
    | stopAll => exact trialInv_stop_all s1 ih
    | maint mode => exact trialInv_maintenance s1 mode ih
    | share uid vid => exact trialInv_share s1 uid vid ih
    | revokeShare uid vid => exact trialInv_revoke_share s1 uid vid ih
  | fireTrial s1 vid hr hguard ih => exact trialInv_finalize_trial s1 vid hguard ih

/-- Claim C9 (amended): over stores reachable by the bot's operations in
which trial-expiry timers only ever fire on a record still carrying a
deadline (no stale timer on a reused id), every state satisfies the trial
invariant — a trial-status record carries a deadline and its owner's
`trial_active` flag is true — and a trial expiry acts exactly once: after
`finalize_trial_vps vid` the record is gone, a second invocation is a
no-op, and the deleted record's (non-empty) owner has `trial_active`
false. -/
theorem trial_invariant_reachable (s : Store) (h : Reachable s) :
    (∀ e ∈ s.vps, e.2.status = "trial" →
      e.2.trial_expires ≠ none ∧ activeD s e.2.owner = true) ∧
    (∀ vid, alistGet (finalize_trial_vps s vid).vps vid = none) ∧
    (∀ vid, finalize_trial_vps (finalize_trial_vps s vid) vid
        = finalize_trial_vps s vid) ∧
    (∀ vid v, alistGet s.vps vid = some v → v.owner ≠ "" →
      activeD (finalize_trial_vps s vid) v.owner = false) := by
  refine ⟨(trialInv_of_reachable s h).1, ?_, ?_, ?_⟩
  · intro vid
    exact finalize_trial_gone s vid
  · intro vid
    exact finalize_trial_of_none _ vid (finalize_trial_gone s vid)
  · intro vid v hv ho
    exact finalize_trial_owner_inactive s vid v hv ho

theorem trial_invariant_reachable_witness :
    (∀ e ∈ initialStore.vps, e.2.status = "trial" →
      e.2.trial_expires ≠ none ∧ activeD initialStore e.2.owner = true) ∧
    (∀ vid, alistGet (finalize_trial_vps initialStore vid).vps vid = none) ∧
    (∀ vid, finalize_trial_vps (finalize_trial_vps initialStore vid) vid
        = finalize_trial_vps initialStore vid) ∧
    (∀ vid v, alistGet initialStore.vps vid = some v → v.owner ≠ "" →
      activeD (finalize_trial_vps initialStore vid) v.owner = false) :=
  trial_invariant_reachable initialStore Reachable.init

/-- Account "w" claims a trial at `now = 0`: record id "1", timer
`("1", 259200)` armed. -/
def c9s1 : Store := (trial_self_claim initialStore "w" 0 0).1

/-- Account "u" claims a trial at `now = 10`: record id "2", timer
`("2", 259210)` armed. -/
def c9s2 : Store := (trial_self_claim c9s1 "u" 10 0).1

/-- Record "2" is deleted (bot.py:1956) while its timer stays armed. -/
def c9s3 : Store := delete_vps c9s2 "2"

/-- Account "w" buys a plan: the allocator reuses the freed id "2". -/
def c9s4 : Store := (buy_plan c9s3 "w" 0 1 1 20 100).1

/-- The stale timer for id "2" fires: `finalize_trial_vps "2"` deletes w's
purchased record and clears w's `trial_active` flag, while w's real trial
record "1" survives with status "trial". -/
def c9s5 : Store := finalize_trial_vps c9s4 "2"

/-- Claim C9 (counterexample): the armed-timer trace w-claims(id "1"),
u-claims(id "2"), delete "2", w-buys(reuses id "2"), stale timer for "2"
fires — a genuine system run — ends in a reachable state holding a
trial-status record whose owner's `trial_active` flag is false. -/
theorem trial_invariant_counterexample :
    SysReachable c9s5 [("1", 259200)] ∧
    ∃ e ∈ c9s5.vps, e.2.status = "trial" ∧ activeD c9s5 e.2.owner = false := by
  constructor
  · have h1 : SysReachable c9s1 [("1", 259200)] := by
      have hstep := SysReachable.step initialStore c9s1 []
        ((trial_self_claim initialStore "w" 0 0).2.2.toList)
        SysReachable.init (Step0.trialSelf initialStore "w" 0 0)
      have e1 : ([] : List (String × Int)) ++
          (trial_self_claim initialStore "w" 0 0).2.2.toList = [("1", 259200)] := by
        decide
      rw [e1] at hstep
      exact hstep
    have h2 : SysReachable c9s2 [("1", 259200), ("2", 259210)] := by
      have hstep := SysReachable.step c9s1 c9s2 [("1", 259200)]
        ((trial_self_claim c9s1 "u" 10 0).2.2.toList) h1
        (Step0.trialSelf c9s1 "u" 10 0)
      have e2 : [("1", 259200)] ++ (trial_self_claim c9s1 "u" 10 0).2.2.toList
          = [("1", 259200), ("2", 259210)] := by decide
      rw [e2] at hstep
      exact hstep
    have h3 : SysReachable c9s3 [("1", 259200), ("2", 259210)] := by
      have hstep := SysReachable.step c9s2 c9s3 [("1", 259200), ("2", 259210)] []
        h2 (Step0.deleteVps c9s2 "2")
      rw [List.append_nil] at hstep
      exact hstep
    have h4 : SysReachable c9s4 [("1", 259200), ("2", 259210)] := by
      have hstep := SysReachable.step c9s3 c9s4 [("1", 259200), ("2", 259210)] []
        h3 (Step0.buy c9s3 "w" 0 1 1 20 100)
      rw [List.append_nil] at hstep
      exact hstep
    have h5 := SysReachable.fire c9s4 [("1", 259200), ("2", 259210)] "2" 259210
      h4 (by decide)
    have e5 : ([("1", 259200), ("2", 259210)] : List (String × Int)).erase
        ("2", 259210) = [("1", 259200)] := by decide
    rw [e5] at h5
    exact h5
  · decide
